import Mathlib

/-!
Verification of the storage-fee manager (`src/storage_fee_manager.py`).

The Python program is shallowly embedded: dictionaries become insertion-ordered
association lists (`defaultdict` reads that materialize entries are modelled by
`ddRead`, which appends a default entry on a missing key), and every handler
threads the manager state explicitly, returning the result together with the
post-call state.

The source's `Decimal` arithmetic is exact decimal arithmetic; every decimal
the program manipulates (the four fee rates, `Decimal(mb) * rate` products,
their sums, and `Decimal(1000)`) is an integer multiple of `1/10000`, so
decimal amounts are embedded as integers scaled by `10000` (`DEC_ONE`), which
represents them exactly.  `math.ceil` on such an amount is the exact integer
ceiling, embedded with floor division (`Int` division by a positive number
rounds toward negative infinity here, so `(x + d - 1) / d` is `ceil(x / d)`).
-/

namespace StorageFee

/-- Association list modelling a Python `dict` (insertion ordered). -/
abbrev AList (κ α : Type) := List (κ × α)

/-- Lookup of a key, first (and in practice unique) occurrence. -/
def alookup {κ α : Type} [DecidableEq κ] : AList κ α → κ → Option α
  | [], _ => none
  | (k', v) :: d, k => if k = k' then some v else alookup d k

/-- `d[k] = v`: replace the first occurrence in place, else append (Python dict
assignment keeps the position of an existing key). -/
def aset {κ α : Type} [DecidableEq κ] : AList κ α → κ → α → AList κ α
  | [], k, v => [(k, v)]
  | (k', v') :: d, k, v => if k = k' then (k', v) :: d else (k', v') :: aset d k v

/-- `del d[k]`: drop the first occurrence of the key. -/
def aerase {κ α : Type} [DecidableEq κ] : AList κ α → κ → AList κ α
  | [], _ => []
  | (k', v') :: d, k => if k = k' then d else (k', v') :: aerase d k

/-- In-place mutation of the object stored at a key (Python attribute writes on
the looked-up object). -/
def amodify {κ α : Type} [DecidableEq κ] (f : α → α) : AList κ α → κ → AList κ α
  | [], _ => []
  | (k', v') :: d, k => if k = k' then (k', f v') :: d else (k', v') :: amodify f d k

/-- `d.get(k, dflt)`: read without materializing. -/
def agetD {κ α : Type} [DecidableEq κ] (d : AList κ α) (k : κ) (dflt : α) : α :=
  (alookup d k).getD dflt

/-- `defaultdict` indexing `d[k]`: return the stored value, or insert and
return the default when the key is missing. -/
def ddRead {κ α : Type} [DecidableEq κ] (d : AList κ α) (k : κ) (dflt : α) :
    α × AList κ α :=
  match alookup d k with
  | some v => (v, d)
  | none => (dflt, d ++ [(k, dflt)])

/-- One decimal currency unit, in the scaled-integer representation of the
source's `Decimal` amounts: a stored integer `x` represents `x / 10000`. -/
def DEC_ONE : Int := 10000

/-- `StorageUnit` from the source: type tag, the two per-MB rates (`Decimal`
in the source; here scaled by `DEC_ONE`), and free-plan availability. -/
structure StorageUnit where
  type : String
  store_fee_per_mb : Int
  update_fee_per_mb : Int
  is_free_plan_allowed : Bool
  deriving DecidableEq, Repr

/-- The `STORAGE_UNITS` configuration table of the source, in source order.
Rates are scaled by `DEC_ONE = 10000`: e.g. `100` stands for `Decimal('0.01')`
and `5` for `Decimal('0.0005')`. -/
def STORAGE_UNITS : AList String StorageUnit :=
  [("storage_A1", ⟨"A", 100, 5, true⟩),
   ("storage_A2", ⟨"A", 10, 100, true⟩),
   ("storage_B1", ⟨"B", 100, 10, false⟩),
   ("storage_B2", ⟨"B", 1, 5000, false⟩)]

/-- `File` from the source. -/
structure File where
  name : String
  size : Int
  storage : String
  deriving DecidableEq, Repr

/-- `MonthlyStats` from the source (both fields default to 0). -/
structure MonthlyStats where
  max_size : Int := 0
  update_kb_sum : Int := 0
  deriving DecidableEq, Repr

/-- A resolved `YYYY-MM` month key.  The source formats the key as the string
`f"{year}-{month:02d}"`, which is injective on valid dates; we keep the pair. -/
structure MonthKey where
  year : Nat
  month : Nat
  deriving DecidableEq, Repr

/-- The fields of a `datetime` that the engine consults. -/
structure Timestamp where
  year : Nat
  month : Nat
  day : Nat
  deriving DecidableEq, Repr

/-- `_get_month_key`. -/
def getMonthKey (t : Timestamp) : MonthKey := ⟨t.year, t.month⟩

/-- `_get_previous_month_key`: the source moves to the first of the month and
subtracts one day; on any valid date this yields the preceding calendar
month. -/
def getPreviousMonthKey (t : Timestamp) : MonthKey :=
  if t.month = 1 then ⟨t.year - 1, 12⟩ else ⟨t.year, t.month - 1⟩

/-- The mutable state of `StorageManager`. -/
structure StorageManager where
  is_free_plan : Bool
  files : AList String File
  current_storage_size : AList String Int
  monthly_stats : AList MonthKey (AList String MonthlyStats)
  calc_reported_sizes_snapshot : AList MonthKey (AList String Int)
  update_fee_settled_for_month : List MonthKey
  last_month_eom_storage_sizes : AList String Int
  deriving DecidableEq, Repr

/-- `StorageManager.__init__`. -/
def initManager (is_free_plan : Bool) : StorageManager :=
  { is_free_plan := is_free_plan
    files := []
    current_storage_size := []
    monthly_stats := []
    calc_reported_sizes_snapshot := []
    update_fee_settled_for_month := []
    last_month_eom_storage_sizes := [] }

/-- `self.KB_TO_MB_DIVISOR`. -/
def KB_TO_MB_DIVISOR : Int := 1000

/-- `math.ceil(kb / 1000)`, the KB-to-MB conversion of the source
(mathematically exact here). -/
def kbToMb (kb : Int) : Int := (kb + (KB_TO_MB_DIVISOR - 1)) / KB_TO_MB_DIVISOR

/-- `math.ceil` of a scaled decimal amount. -/
def ceilDec (x : Int) : Int := (x + (DEC_ONE - 1)) / DEC_ONE

/-- `math.ceil(Decimal(mb) * rate)` applied after the KB-to-MB conversion:
the two-stage per-unit ceiling of the source. -/
def feeItem (kb : Int) (rate : Int) : Int := ceilDec (kbToMb kb * rate)

/-- The unceiled decimal fee item `Decimal(mb) * rate` that the source
accumulates for the usage-fee computation (scaled by `DEC_ONE`). -/
def feeItemDec (kb : Int) (rate : Int) : Int := kbToMb kb * rate

/-- The seeded per-unit table built by `_ensure_month_init` for a fresh month:
each unit recorded in `last_month_eom_storage_sizes` starts with its
end-of-month size as `max_size` and zero update traffic. -/
def seededStats (eom : AList String Int) : AList String MonthlyStats :=
  eom.map (fun p => (p.1, { max_size := p.2, update_kb_sum := 0 }))

/-- `_ensure_month_init`. -/
def ensureMonthInit (st : StorageManager) (mk : MonthKey) : StorageManager :=
  if (alookup st.monthly_stats mk).isSome then st
  else { st with monthly_stats :=
          st.monthly_stats ++ [(mk, seededStats st.last_month_eom_storage_sizes)] }

/-- `self.monthly_stats[month_key][s_name]` for a month that has been
initialized: a `defaultdict` read on the inner table, materializing a zero
entry when the unit is missing.  (The handlers only perform this read after
`_ensure_month_init`; on an absent month the source would raise, modelled as a
default result.) -/
def ddReadStats (st : StorageManager) (mk : MonthKey) (s : String) :
    MonthlyStats × StorageManager :=
  match alookup st.monthly_stats mk with
  | some d =>
      let r := ddRead d s { max_size := 0, update_kb_sum := 0 }
      (r.1, { st with monthly_stats := aset st.monthly_stats mk r.2 })
  | none => ({ max_size := 0, update_kb_sum := 0 }, st)

/-- Writing back the mutated `MonthlyStats` object. -/
def awriteStats (st : StorageManager) (mk : MonthKey) (s : String)
    (v : MonthlyStats) : StorageManager :=
  match alookup st.monthly_stats mk with
  | some d => { st with monthly_stats := aset st.monthly_stats mk (aset d s v) }
  | none => st

/-- The value `self.monthly_stats[mk][s]` would have after lazy
initialization: the stored value if present, the seeded value for a month not
yet materialized, and the defaultdict zero otherwise. -/
def effStats (st : StorageManager) (mk : MonthKey) (s : String) : MonthlyStats :=
  match alookup st.monthly_stats mk with
  | some d => agetD d s { max_size := 0, update_kb_sum := 0 }
  | none =>
      { max_size := agetD st.last_month_eom_storage_sizes s 0, update_kb_sum := 0 }

/-- Accumulator of the loop in `_would_exceed_free_plan_limit`: the two
integer fee totals and the threaded manager state. -/
structure SimAcc where
  sFee : Int
  uFee : Int
  st : StorageManager

/-- The `for s_name, s_unit in STORAGE_UNITS.items()` loop of
`_would_exceed_free_plan_limit`, threading the state (each `defaultdict` read
may materialize an entry). -/
def simFeesLoop (mk : MonthKey) (opName : String) (opMax opKb : Int) :
    List (String × StorageUnit) → SimAcc → SimAcc
  | [], acc => acc
  | (s_name, s_unit) :: rest, acc =>
      if s_unit.is_free_plan_allowed = false then
        simFeesLoop mk opName opMax opKb rest acc
      else
        let r := ddReadStats acc.st mk s_name
        let s_stats := r.1
        let simMax := if s_name = opName then opMax else s_stats.max_size
        let simUkb := s_stats.update_kb_sum + (if s_name = opName then opKb else 0)
        let sFee' := if 0 < simMax then acc.sFee + feeItem simMax s_unit.store_fee_per_mb else acc.sFee
        let uFee' := if 0 < simUkb then acc.uFee + feeItem simUkb s_unit.update_fee_per_mb else acc.uFee
        simFeesLoop mk opName opMax opKb rest ⟨sFee', uFee', r.2⟩

/-- `_would_exceed_free_plan_limit`.  Returns the boolean together with the
post-call state (the simulation materializes monthly entries but never changes
a stored value). -/
def wouldExceedFreePlanLimit (st : StorageManager) (mk : MonthKey)
    (opName : String) (opMax opKb : Int) : Bool × StorageManager :=
  if st.is_free_plan = false then (false, st)
  else
    let st1 := ensureMonthInit st mk
    let acc := simFeesLoop mk opName opMax opKb STORAGE_UNITS ⟨0, 0, st1⟩
    (decide (1000 < acc.sFee + acc.uFee), acc.st)

/-- The fee triple returned by `_calculate_total_fees`. -/
structure Fees where
  storage_fee : Int
  update_fee : Int
  usage_fee : Int
  deriving DecidableEq, Repr

/-- Accumulator of the loop in `_calculate_total_fees`: integer fee totals,
the two scaled-decimal totals used for the usage fee, and the state. -/
structure CalcAcc where
  sInt : Int
  uInt : Int
  sDec : Int
  uDec : Int
  st : StorageManager

/-- The per-unit loop of `_calculate_total_fees`. -/
def calcFeesLoop (mk : MonthKey) :
    List (String × StorageUnit) → CalcAcc → CalcAcc
  | [], acc => acc
  | (s_name, s_unit) :: rest, acc =>
      let r := ddReadStats acc.st mk s_name
      let s_stats := r.1
      let st' := r.2
      let sInt' := if 0 < s_stats.max_size then acc.sInt + feeItem s_stats.max_size s_unit.store_fee_per_mb else acc.sInt
      let sDec' := if 0 < s_stats.max_size then acc.sDec + feeItemDec s_stats.max_size s_unit.store_fee_per_mb else acc.sDec
      let effUkb := if mk ∈ st'.update_fee_settled_for_month then 0 else s_stats.update_kb_sum
      let uInt' := if 0 < effUkb then acc.uInt + feeItem effUkb s_unit.update_fee_per_mb else acc.uInt
      let uDec' := if mk ∈ st'.update_fee_settled_for_month then acc.uDec
        else if 0 < s_stats.update_kb_sum then acc.uDec + feeItemDec s_stats.update_kb_sum s_unit.update_fee_per_mb
        else acc.uDec
      calcFeesLoop mk rest ⟨sInt', uInt', sDec', uDec', st'⟩

/-- `storages_to_check`: all units on a paid plan, only free-plan-allowed
units on the free plan. -/
def storagesToCheck (is_free : Bool) : List (String × StorageUnit) :=
  STORAGE_UNITS.filter (fun p => is_free = false || p.2.is_free_plan_allowed)

/-- `_calculate_total_fees`. -/
def calculateTotalFees (st : StorageManager) (mk : MonthKey) :
    Fees × StorageManager :=
  let st1 := ensureMonthInit st mk
  let acc := calcFeesLoop mk (storagesToCheck st1.is_free_plan) ⟨0, 0, 0, 0, st1⟩
  let usage_fee := ceilDec (max 0 (acc.sDec + acc.uDec - 1000 * DEC_ONE))
  ({ storage_fee := acc.sInt, update_fee := acc.uInt, usage_fee := usage_fee }, acc.st)

/-- The outcome of a mutating handler: a rejection with the source's exact
message, or acceptance with the recomputed fee triple. -/
inductive Res where
  | rejected (msg : String)
  | ok (fees : Fees)
  deriving DecidableEq, Repr

/-- Whether a handler accepted the operation. -/
def Res.isOk : Res → Bool
  | .rejected _ => false
  | .ok _ => true

/-- A placeholder `StorageUnit`; never actually read, since `agetD` with this
default is only used under a successful lookup guard. -/
def dummyUnit : StorageUnit := ⟨"", 0, 0, false⟩

/-- A placeholder `File`; never actually read (same remark). -/
def dummyFile : File := ⟨"", 0, ""⟩

/-- The `if self.is_free_plan:` admission block of `handle_upload`: read the
month's aggregate for the target unit, form the hypothetical watermark, and
run the limit simulation.  Returns the verdict and the threaded state. -/
def uploadLimitCheck (st : StorageManager) (mk : MonthKey) (storage_name : String)
    (size : Int) : Bool × StorageManager :=
  if st.is_free_plan then
    let r := ddReadStats st mk storage_name
    let simulated := agetD r.2.current_storage_size storage_name 0 + size
    let potential := max r.1.max_size simulated
    wouldExceedFreePlanLimit r.2 mk storage_name potential size
  else (false, st)

/-- The `if self.is_free_plan:` admission block of `handle_delete`: deletion
never raises the watermark; the traffic delta is the deleted file's size. -/
def deleteLimitCheck (st : StorageManager) (mk : MonthKey) (storage_name : String)
    (deleted_file_size : Int) : Bool × StorageManager :=
  if st.is_free_plan then
    let r := ddReadStats st mk storage_name
    wouldExceedFreePlanLimit r.2 mk storage_name r.1.max_size deleted_file_size
  else (false, st)

/-- The `if self.is_free_plan:` admission block of `handle_update`: the
hypothetical occupancy moves by the size delta; the traffic delta counts both
the original and the new size. -/
def updateLimitCheck (st : StorageManager) (mk : MonthKey) (storage_name : String)
    (original_size new_size : Int) : Bool × StorageManager :=
  if st.is_free_plan then
    let r := ddReadStats st mk storage_name
    let simulated := agetD r.2.current_storage_size storage_name 0 + (new_size - original_size)
    let potential := max r.1.max_size simulated
    wouldExceedFreePlanLimit r.2 mk storage_name potential (original_size + new_size)
  else (false, st)

/-- The commit block of `handle_upload` ("Perform upload and update
statistics"): register the file, grow the occupancy, raise the watermark, add
the traffic, and recompute the month's fees. -/
def uploadCommit (st : StorageManager) (mk : MonthKey)
    (storage_name file_name : String) (size : Int) : Res × StorageManager :=
  let st3 := { st with files := aset st.files file_name ⟨file_name, size, storage_name⟩ }
  let st4 := { st3 with current_storage_size := aset st3.current_storage_size storage_name (agetD st3.current_storage_size storage_name 0 + size) }
  let r := ddReadStats st4 mk storage_name
  let newStats : MonthlyStats :=
    { max_size := max r.1.max_size (agetD r.2.current_storage_size storage_name 0),
      update_kb_sum := r.1.update_kb_sum + size }
  let st5 := awriteStats r.2 mk storage_name newStats
  let fr := calculateTotalFees st5 mk
  (.ok fr.1, fr.2)

/-- The commit block of `handle_delete`: shrink the occupancy of the file's
unit, remove the file, add the deleted size to the traffic, recompute fees
(the watermark is not touched). -/
def deleteCommit (st : StorageManager) (mk : MonthKey)
    (storage_name file_name : String) (file : File) : Res × StorageManager :=
  let st3 := { st with current_storage_size := aset st.current_storage_size file.storage (agetD st.current_storage_size file.storage 0 - file.size) }
  let st4 := { st3 with files := aerase st3.files file_name }
  let r := ddReadStats st4 mk storage_name
  let newStats : MonthlyStats :=
    { max_size := r.1.max_size, update_kb_sum := r.1.update_kb_sum + file.size }
  let st5 := awriteStats r.2 mk storage_name newStats
  let fr := calculateTotalFees st5 mk
  (.ok fr.1, fr.2)

/-- The commit block of `handle_update`: move the occupancy by the size delta,
raise the watermark, count original+new size as traffic, resize the stored
file, recompute fees. -/
def updateCommit (st : StorageManager) (mk : MonthKey)
    (storage_name file_name : String) (original_size new_size : Int) : Res × StorageManager :=
  let st3 := { st with current_storage_size := aset st.current_storage_size storage_name (agetD st.current_storage_size storage_name 0 + (new_size - original_size)) }
  let r := ddReadStats st3 mk storage_name
  let newStats : MonthlyStats :=
    { max_size := max r.1.max_size (agetD r.2.current_storage_size storage_name 0),
      update_kb_sum := r.1.update_kb_sum + (original_size + new_size) }
  let st5 := awriteStats r.2 mk storage_name newStats
  let st6 := { st5 with files := amodify (fun f => { f with size := new_size }) st5.files file_name }
  let fr := calculateTotalFees st6 mk
  (.ok fr.1, fr.2)

/-- `handle_upload`. -/
def handleUpload (st : StorageManager) (t : Timestamp)
    (storage_name file_name : String) (size : Int) : Res × StorageManager :=
  if (alookup st.files file_name).isSome then (.rejected "UPLOAD: file already exists", st)
  else if (alookup STORAGE_UNITS storage_name).isNone then (.rejected "UPLOAD: invalid storage name", st)
  else
    let unit := agetD STORAGE_UNITS storage_name dummyUnit
    if st.is_free_plan && unit.is_free_plan_allowed = false then
      (.rejected "UPLOAD: this storage location is not available on the free plan", st)
    else
      let mk := getMonthKey t
      let st1 := ensureMonthInit st mk
      let wres := uploadLimitCheck st1 mk storage_name size
      if wres.1 then (.rejected "UPLOAD: free plan fee limit exceeded", wres.2)
      else uploadCommit wres.2 mk storage_name file_name size

/-- `handle_delete`.  Note the source runs `_ensure_month_init` before any
validation, so even a rejected call may materialize the month entry. -/
def handleDelete (st : StorageManager) (t : Timestamp)
    (storage_name file_name : String) : Res × StorageManager :=
  let mk := getMonthKey t
  let st1 := ensureMonthInit st mk
  if (alookup STORAGE_UNITS storage_name).isNone then (.rejected "DELETE: invalid storage name", st1)
  else
    let unit := agetD STORAGE_UNITS storage_name dummyUnit
    if st1.is_free_plan && unit.is_free_plan_allowed = false then
      (.rejected "DELETE: this storage location is not available on the free plan", st1)
    else if (alookup st1.files file_name).isNone then (.rejected "DELETE: file does not exist", st1)
    else
      let file := agetD st1.files file_name dummyFile
      if file.storage ≠ storage_name then (.rejected "DELETE: file is not in the specified storage", st1)
      else
        let deleted_file_size := file.size
        let wres := deleteLimitCheck st1 mk storage_name deleted_file_size
        if wres.1 then (.rejected "DELETE: free plan fee limit exceeded", wres.2)
        else deleteCommit wres.2 mk storage_name file_name file

/-- `handle_update`.  As with delete, `_ensure_month_init` precedes all
validation. -/
def handleUpdate (st : StorageManager) (t : Timestamp)
    (storage_name file_name : String) (new_size : Int) : Res × StorageManager :=
  let mk := getMonthKey t
  let st1 := ensureMonthInit st mk
  if (alookup STORAGE_UNITS storage_name).isNone then (.rejected "UPDATE: invalid storage name", st1)
  else
    let unit := agetD STORAGE_UNITS storage_name dummyUnit
    if st1.is_free_plan && unit.is_free_plan_allowed = false then
      (.rejected "UPDATE: this storage location is not available on the free plan", st1)
    else if (alookup st1.files file_name).isNone then (.rejected "UPDATE: file does not exist", st1)
    else
      let file := agetD st1.files file_name dummyFile
      if file.storage ≠ storage_name then (.rejected "UPDATE: file is not in the specified storage", st1)
      else
        let original_size := file.size
        let wres := updateLimitCheck st1 mk storage_name original_size new_size
        if wres.1 then (.rejected "UPDATE: free plan fee limit exceeded", wres.2)
        else updateCommit wres.2 mk storage_name file_name original_size new_size

/-- The result of `handle_calc`: the four reported snapshot sizes in fixed
unit order, plus the fee triple. -/
structure CalcRes where
  kb_a1 : Int
  kb_a2 : Int
  kb_b1 : Int
  kb_b2 : Int
  fees : Fees
  deriving DecidableEq, Repr

/-- `set.add` on the settled-months set (membership is all that matters). -/
def addSettled (l : List MonthKey) (mk : MonthKey) : List MonthKey :=
  if mk ∈ l then l else l ++ [mk]

/-- `handle_calc`. -/
def handleCalc (st : StorageManager) (t : Timestamp) : CalcRes × StorageManager :=
  let mk := getPreviousMonthKey t
  let fr := calculateTotalFees st mk
  let stA := fr.2
  let stB :=
    if (alookup stA.calc_reported_sizes_snapshot mk).isNone then
      let snap := STORAGE_UNITS.map (fun p => (p.1, agetD stA.current_storage_size p.1 0))
      let eom := STORAGE_UNITS.foldl
        (fun e p => aset e p.1 (agetD stA.current_storage_size p.1 0))
        stA.last_month_eom_storage_sizes
      { stA with calc_reported_sizes_snapshot := aset stA.calc_reported_sizes_snapshot mk snap,
                 last_month_eom_storage_sizes := eom }
    else stA
  let reported := agetD stB.calc_reported_sizes_snapshot mk []
  let stC := { stB with update_fee_settled_for_month := addSettled stB.update_fee_settled_for_month mk }
  (⟨agetD reported "storage_A1" 0, agetD reported "storage_A2" 0,
    agetD reported "storage_B1" 0, agetD reported "storage_B2" 0, fr.1⟩, stC)

/-- The response line of `handle_calc`, exactly as formatted by the source. -/
def renderCalc (r : CalcRes) : String :=
  "CALC: [" ++ toString r.kb_a1 ++ " " ++ toString r.kb_a2 ++ " "
    ++ toString r.kb_b1 ++ " " ++ toString r.kb_b2 ++ "] "
    ++ toString r.fees.storage_fee ++ " " ++ toString r.fees.update_fee ++ " "
    ++ toString r.fees.usage_fee

/-- A single operation fed to the engine. -/
inductive Op where
  | upload (t : Timestamp) (storage_name file_name : String) (size : Int)
  | delete (t : Timestamp) (storage_name file_name : String)
  | update (t : Timestamp) (storage_name file_name : String) (new_size : Int)
  | closeMonth (t : Timestamp)
  deriving DecidableEq, Repr

/-- Run one operation, returning the mutating-handler result (if any) and the
new state. -/
def runOp (st : StorageManager) : Op → Option Res × StorageManager
  | .upload t sn fn size =>
      let r := handleUpload st t sn fn size
      (some r.1, r.2)
  | .delete t sn fn =>
      let r := handleDelete st t sn fn
      (some r.1, r.2)
  | .update t sn fn ns =>
      let r := handleUpdate st t sn fn ns
      (some r.1, r.2)
  | .closeMonth t => (none, (handleCalc st t).2)

/-- Run a list of operations for their effects on the state. -/
def applyOps (st : StorageManager) : List Op → StorageManager
  | [] => st
  | op :: ops => applyOps (runOp st op).2 ops

/-- Per-unit integer storage-fee contribution (`_calculate_total_fees`,
storage part). -/
def storeIntItem (stats : MonthlyStats) (u : StorageUnit) : Int :=
  if 0 < stats.max_size then feeItem stats.max_size u.store_fee_per_mb else 0

/-- Per-unit unceiled decimal storage-fee contribution (scaled). -/
def storeDecItem (stats : MonthlyStats) (u : StorageUnit) : Int :=
  if 0 < stats.max_size then feeItemDec stats.max_size u.store_fee_per_mb else 0

/-- Per-unit integer update-fee contribution, zeroed for a settled month. -/
def updIntItem (settled : Prop) [Decidable settled] (stats : MonthlyStats)
    (u : StorageUnit) : Int :=
  let effUkb := if settled then 0 else stats.update_kb_sum
  if 0 < effUkb then feeItem effUkb u.update_fee_per_mb else 0

/-- Per-unit unceiled decimal update-fee contribution for the usage
computation, zeroed for a settled month. -/
def updDecItem (settled : Prop) [Decidable settled] (stats : MonthlyStats)
    (u : StorageUnit) : Int :=
  if settled then 0
  else if 0 < stats.update_kb_sum then feeItemDec stats.update_kb_sum u.update_fee_per_mb
  else 0

/-- Sum of per-unit integer storage fees over a unit list. -/
def storeIntSum (st : StorageManager) (mk : MonthKey)
    (l : List (String × StorageUnit)) : Int :=
  (l.map fun p => storeIntItem (effStats st mk p.1) p.2).sum

/-- Sum of per-unit decimal storage fees over a unit list. -/
def storeDecSum (st : StorageManager) (mk : MonthKey)
    (l : List (String × StorageUnit)) : Int :=
  (l.map fun p => storeDecItem (effStats st mk p.1) p.2).sum

/-- Sum of per-unit integer update fees over a unit list. -/
def updIntSum (st : StorageManager) (mk : MonthKey)
    (l : List (String × StorageUnit)) : Int :=
  (l.map fun p => updIntItem (mk ∈ st.update_fee_settled_for_month) (effStats st mk p.1) p.2).sum

/-- Sum of per-unit decimal update fees over a unit list. -/
def updDecSum (st : StorageManager) (mk : MonthKey)
    (l : List (String × StorageUnit)) : Int :=
  (l.map fun p => updDecItem (mk ∈ st.update_fee_settled_for_month) (effStats st mk p.1) p.2).sum

/-- The integer storage-fee total that `_calculate_total_fees` reports. -/
def storageFeeOf (st : StorageManager) (mk : MonthKey) : Int :=
  storeIntSum st mk (storagesToCheck st.is_free_plan)

/-- The integer update-fee total that `_calculate_total_fees` reports. -/
def updateFeeOf (st : StorageManager) (mk : MonthKey) : Int :=
  updIntSum st mk (storagesToCheck st.is_free_plan)

/-- The pooled decimal storage total used for the usage fee (scaled). -/
def storageDecOf (st : StorageManager) (mk : MonthKey) : Int :=
  storeDecSum st mk (storagesToCheck st.is_free_plan)

/-- The pooled decimal update total used for the usage fee (scaled). -/
def updateDecOf (st : StorageManager) (mk : MonthKey) : Int :=
  updDecSum st mk (storagesToCheck st.is_free_plan)

/-- The usage fee that `_calculate_total_fees` reports: a single ceiling of
the pooled decimal amount in excess of 1000. -/
def usageFeeOf (st : StorageManager) (mk : MonthKey) : Int :=
  ceilDec (max 0 (storageDecOf st mk + updateDecOf st mk - 1000 * DEC_ONE))

/-- Modelled from the claim's words (claim C3): the overage computed with the
per-unit ceiling applied to every contribution before summation, i.e. the
excess of the summed integer per-unit fees over 1000.  To be compared against
`usageFeeOf`, the pooled-rounding overage the code computes. -/
def usageFeePerUnitCeilClaim (st : StorageManager) (mk : MonthKey) : Int :=
  max 0 (storageFeeOf st mk + updateFeeOf st mk - 1000)

/-- Per-unit simulated storage-fee contribution of
`_would_exceed_free_plan_limit`: the target unit's watermark is replaced by
the hypothetical one. -/
def simStoreItem (opName : String) (opMax : Int) (p : String × StorageUnit)
    (stats : MonthlyStats) : Int :=
  let mx := if p.1 = opName then opMax else stats.max_size
  if 0 < mx then feeItem mx p.2.store_fee_per_mb else 0

/-- Per-unit simulated update-fee contribution: the target unit's traffic is
increased by the operation's traffic delta. -/
def simUpdItem (opName : String) (opKb : Int) (p : String × StorageUnit)
    (stats : MonthlyStats) : Int :=
  let u := stats.update_kb_sum + (if p.1 = opName then opKb else 0)
  if 0 < u then feeItem u p.2.update_fee_per_mb else 0

/-- Simulated integer storage-fee sum over the free-plan-allowed units. -/
def simStoreSum (st : StorageManager) (mk : MonthKey) (opName : String)
    (opMax : Int) (l : List (String × StorageUnit)) : Int :=
  (l.map fun p =>
    if p.2.is_free_plan_allowed then simStoreItem opName opMax p (effStats st mk p.1) else 0).sum

/-- Simulated integer update-fee sum over the free-plan-allowed units. -/
def simUpdSum (st : StorageManager) (mk : MonthKey) (opName : String)
    (opKb : Int) (l : List (String × StorageUnit)) : Int :=
  (l.map fun p =>
    if p.2.is_free_plan_allowed then simUpdItem opName opKb p (effStats st mk p.1) else 0).sum

/-- The simulated post-operation total integer fee over free-tier-eligible
units that the free-plan admission check compares against 1000. -/
def simulatedFreeTierFee (st : StorageManager) (mk : MonthKey) (opName : String)
    (opMax opKb : Int) : Int :=
  simStoreSum st mk opName opMax STORAGE_UNITS + simUpdSum st mk opName opKb STORAGE_UNITS

/-- Total size of the files currently registered to a unit. -/
def unitFilesSize (files : AList String File) (s : String) : Int :=
  (files.map fun p => if p.2.storage = s then p.2.size else 0).sum

/-- Conservation: each unit's occupancy equals the sum of its files' sizes. -/
def Conservation (st : StorageManager) : Prop :=
  ∀ s, agetD st.current_storage_size s 0 = unitFilesSize st.files s

/-- All registered file sizes are nonnegative. -/
def FilesNonneg (files : AList String File) : Prop :=
  ∀ p ∈ files, 0 ≤ p.2.size

/-- The operation is an upload/delete/update whose size arguments are
nonnegative (month-close excluded). -/
def Op.NonnegSizes : Op → Prop
  | .upload _ _ _ size => 0 ≤ size
  | .delete _ _ _ => True
  | .update _ _ _ new_size => 0 ≤ new_size
  | .closeMonth _ => False

/-- The operation is one of the three file operations, upload/delete/update
(month-close excluded — closing a month rewrites the seed table, which can
lower the seeded watermark of a month not yet materialized). -/
def Op.IsFileOp : Op → Prop
  | .upload _ _ _ _ => True
  | .delete _ _ _ => True
  | .update _ _ _ _ => True
  | .closeMonth _ => False

/-- What a rejected call leaves intact: every component of the manager state
except that `monthly_stats` may have lazily materialized entries carrying
exactly their default/seeded values — so every effective aggregate value is
unchanged. -/
structure StatePreserved (st st' : StorageManager) : Prop where
  free : st'.is_free_plan = st.is_free_plan
  files : st'.files = st.files
  css : st'.current_storage_size = st.current_storage_size
  snap : st'.calc_reported_sizes_snapshot = st.calc_reported_sizes_snapshot
  settled : st'.update_fee_settled_for_month = st.update_fee_settled_for_month
  eom : st'.last_month_eom_storage_sizes = st.last_month_eom_storage_sizes
  eff : ∀ mk s, effStats st' mk s = effStats st mk s

/-- The month-close bookkeeping tables (and the plan flag) that the mutating
handlers never touch, on any path. -/
structure QuietTables (st st' : StorageManager) : Prop where
  free : st'.is_free_plan = st.is_free_plan
  snap : st'.calc_reported_sizes_snapshot = st.calc_reported_sizes_snapshot
  settled : st'.update_fee_settled_for_month = st.update_fee_settled_for_month
  eom : st'.last_month_eom_storage_sizes = st.last_month_eom_storage_sizes

/-- Both monthly aggregates are pointwise non-decreasing between two states. -/
def EffMono (st st' : StorageManager) : Prop :=
  ∀ mk s, (effStats st mk s).max_size ≤ (effStats st' mk s).max_size
    ∧ (effStats st mk s).update_kb_sum ≤ (effStats st' mk s).update_kb_sum

/-- The `max_size` monthly aggregate alone is pointwise non-decreasing
between two states (holds for file operations with no sign restriction on the
size arguments: every `max_size` write is `max` with the old value). -/
def MaxMono (st st' : StorageManager) : Prop :=
  ∀ mk s, (effStats st mk s).max_size ≤ (effStats st' mk s).max_size

/-- A free-plan manager after one accepted 500 KB upload to `storage_A1` in
January 2024 (the state used to exercise repeated month-closes). -/
def c2State : StorageManager :=
  (handleUpload (initManager true) ⟨2024, 1, 5⟩ "storage_A1" "f1" 500).2

/-- A paid-plan manager holding a 99,950,000 KB file in `storage_A1` and a
1,500 KB file in `storage_A2`, both uploaded in January 2024.  Its January
decimal fee pool is 1049.497 while its per-unit-ceiled integer fees sum to
1052, separating the two overage-rounding policies. -/
def c3State : StorageManager :=
  applyOps (initManager false)
    [.upload ⟨2024, 1, 5⟩ "storage_A1" "f1" 99950000,
     .upload ⟨2024, 1, 6⟩ "storage_A2" "f2" 1500]

/-- A free-plan manager whose January 2024 (50,000,000 KB of traffic on
`storage_A2`) has been settled by a February month-close. -/
def c9State : StorageManager :=
  applyOps (initManager true)
    [.upload ⟨2024, 1, 5⟩ "storage_A2" "f1" 50000000,
     .closeMonth ⟨2024, 2, 1⟩]

/-- A paid-plan manager holding one 10 KB file, target of size-unvalidated
updates. -/
def c10Paid : StorageManager :=
  (handleUpload (initManager false) ⟨2024, 1, 5⟩ "storage_A1" "f1" 10).2

/-- A free-plan manager holding one 10 KB file, target of a shrinking update
with a negative new size. -/
def c10Free : StorageManager :=
  (handleUpload (initManager true) ⟨2024, 1, 5⟩ "storage_A1" "g" 10).2

theorem alookup_aset {κ α : Type} [DecidableEq κ] (d : AList κ α) (k k' : κ) (v : α) :
    alookup (aset d k' v) k = if k = k' then some v else alookup d k := by
  induction d with
  | nil => by_cases h : k = k' <;> simp [aset, alookup, h]
  | cons p d ih =>
      obtain ⟨k0, v0⟩ := p
      by_cases h0 : k' = k0
      · subst h0
        by_cases h : k = k' <;> simp [aset, alookup, h]
      · simp only [aset, if_neg h0, alookup, ih]
        by_cases h1 : k = k0
        · by_cases h2 : k = k'
          · exact absurd (h2.symm.trans h1) h0
          · have h0' : ¬ k0 = k' := fun hh => h0 hh.symm
            simp [h1, h2, h0']
        · simp [h1]

theorem agetD_aset {κ α : Type} [DecidableEq κ] (d : AList κ α) (k k' : κ) (v dflt : α) :
    agetD (aset d k' v) k dflt = if k = k' then v else agetD d k dflt := by
  by_cases h : k = k' <;> simp [agetD, alookup_aset, h]

theorem alookup_append {κ α : Type} [DecidableEq κ] (d e : AList κ α) (k : κ) :
    alookup (d ++ e) k = ((alookup d k).rec (alookup e k) (fun v => some v)) := by
  induction d with
  | nil => simp [alookup]
  | cons p d ih =>
      obtain ⟨k0, v0⟩ := p
      by_cases h : k = k0 <;> simp [alookup, h, ih]

theorem alookup_map {κ α β : Type} [DecidableEq κ] (d : AList κ α) (f : α → β) (k : κ) :
    alookup (d.map fun p => (p.1, f p.2)) k = (alookup d k).map f := by
  induction d with
  | nil => simp [alookup]
  | cons p d ih =>
      obtain ⟨k0, v0⟩ := p
      by_cases h : k = k0 <;> simp [alookup, h, ih]

theorem alookup_seededStats (eom : AList String Int) (s : String) :
    alookup (seededStats eom) s
      = (alookup eom s).map (fun v => { max_size := v, update_kb_sum := 0 }) := by
  induction eom with
  | nil => rfl
  | cons p d ih =>
      obtain ⟨k0, v0⟩ := p
      unfold seededStats at ih ⊢
      simp only [List.map_cons, alookup]
      by_cases h : s = k0 <;> simp [h, ih]

theorem ddRead_fst {κ α : Type} [DecidableEq κ] (d : AList κ α) (k : κ) (dflt : α) :
    (ddRead d k dflt).1 = agetD d k dflt := by
  unfold ddRead agetD
  cases h : alookup d k <;> simp [h]

theorem alookup_ddRead_snd {κ α : Type} [DecidableEq κ] (d : AList κ α) (k k' : κ) (dflt : α) :
    alookup (ddRead d k dflt).2 k' =
      if k' = k then some (agetD d k dflt) else alookup d k' := by
  unfold ddRead
  cases h : alookup d k with
  | some v =>
      by_cases hk : k' = k <;> simp [agetD, h, hk]
  | none =>
      by_cases hk : k' = k
      · subst hk
        simp [agetD, h, alookup_append, alookup]
      · simp only [alookup_append, agetD, h, if_neg hk]
        cases h' : alookup d k' <;> simp [alookup, hk, h']

theorem aset_of_alookup_none {κ α : Type} [DecidableEq κ] (d : AList κ α) (k : κ) (v : α)
    (h : alookup d k = none) : aset d k v = d ++ [(k, v)] := by
  induction d with
  | nil => simp [aset]
  | cons p d ih =>
      obtain ⟨k0, v0⟩ := p
      by_cases hk : k = k0
      · simp [alookup, hk] at h
      · simp only [alookup, if_neg hk] at h
        simp [aset, hk, ih h]

theorem statePreserved_refl (st : StorageManager) : StatePreserved st st :=
  ⟨rfl, rfl, rfl, rfl, rfl, rfl, fun _ _ => rfl⟩

theorem statePreserved_trans {st1 st2 st3 : StorageManager}
    (h12 : StatePreserved st1 st2) (h23 : StatePreserved st2 st3) :
    StatePreserved st1 st3 := by
  obtain ⟨a1, a2, a3, a4, a5, a6, a7⟩ := h12
  obtain ⟨b1, b2, b3, b4, b5, b6, b7⟩ := h23
  exact ⟨b1.trans a1, b2.trans a2, b3.trans a3, b4.trans a4, b5.trans a5, b6.trans a6,
    fun mk s => (b7 mk s).trans (a7 mk s)⟩

theorem ensure_of_isSome (st : StorageManager) (mk : MonthKey)
    (h : (alookup st.monthly_stats mk).isSome = true) : ensureMonthInit st mk = st := by
  simp [ensureMonthInit, h]

theorem ensure_lookup_isSome (st : StorageManager) (mk : MonthKey) :
    (alookup (ensureMonthInit st mk).monthly_stats mk).isSome = true := by
  unfold ensureMonthInit
  cases h : alookup st.monthly_stats mk with
  | some d => simp [h]
  | none => simp [h, alookup_append, alookup]

theorem ensure_lookup_other (st : StorageManager) (mk mk' : MonthKey) (h : mk' ≠ mk) :
    alookup (ensureMonthInit st mk).monthly_stats mk' = alookup st.monthly_stats mk' := by
  unfold ensureMonthInit
  cases hs : alookup st.monthly_stats mk with
  | some d => simp [hs]
  | none =>
      simp only [hs, Option.isSome_none, Bool.false_eq_true, if_false]
      rw [alookup_append]
      cases h' : alookup st.monthly_stats mk' <;> simp [alookup, h, h']

theorem statePreserved_ensure (st : StorageManager) (mk : MonthKey) :
    StatePreserved st (ensureMonthInit st mk) := by
  by_cases hs : (alookup st.monthly_stats mk).isSome = true
  · rw [ensure_of_isSome st mk hs]
    exact statePreserved_refl st
  · have hn : alookup st.monthly_stats mk = none := by
      cases h : alookup st.monthly_stats mk
      · rfl
      · simp [h] at hs
    have hform : ensureMonthInit st mk =
        { st with monthly_stats :=
            st.monthly_stats ++ [(mk, seededStats st.last_month_eom_storage_sizes)] } := by
      unfold ensureMonthInit
      simp [hn]
    rw [hform]
    refine ⟨rfl, rfl, rfl, rfl, rfl, rfl, ?_⟩
    intro mk' s
    unfold effStats
    simp only
    rw [alookup_append]
    by_cases hmk : mk' = mk
    · subst hmk
      rw [hn]
      simp only [alookup, if_pos rfl, if_true]
      unfold agetD
      rw [alookup_seededStats]
      cases h2 : alookup st.last_month_eom_storage_sizes s <;> simp [h2]
    · cases h' : alookup st.monthly_stats mk' <;> simp [alookup, hmk, h']

theorem ddReadStats_fst (st : StorageManager) (mk : MonthKey) (s : String)
    (h : (alookup st.monthly_stats mk).isSome = true) :
    (ddReadStats st mk s).1 = effStats st mk s := by
  unfold ddReadStats effStats
  cases hm : alookup st.monthly_stats mk with
  | some d => simp [ddRead_fst]
  | none => simp [hm] at h

theorem statePreserved_ddReadStats (st : StorageManager) (mk : MonthKey) (s : String) :
    StatePreserved st (ddReadStats st mk s).2 := by
  unfold ddReadStats
  cases hm : alookup st.monthly_stats mk with
  | none => exact statePreserved_refl st
  | some d =>
      refine ⟨rfl, rfl, rfl, rfl, rfl, rfl, ?_⟩
      intro mk' s'
      unfold effStats
      simp only
      rw [alookup_aset]
      by_cases hmk : mk' = mk
      · subst hmk
        simp only [if_pos rfl, if_true, hm]
        unfold agetD
        rw [alookup_ddRead_snd]
        by_cases hss : s' = s
        · subst hss
          simp [agetD]
        · simp [hss]
      · simp only [if_neg hmk]

theorem ddReadStats_lookup_isSome (st : StorageManager) (mk : MonthKey) (s : String)
    (mk' : MonthKey) :
    (alookup (ddReadStats st mk s).2.monthly_stats mk').isSome
      = (alookup st.monthly_stats mk').isSome := by
  unfold ddReadStats
  cases hm : alookup st.monthly_stats mk with
  | none => rfl
  | some d =>
      simp only
      rw [alookup_aset]
      by_cases hmk : mk' = mk <;> simp [hmk, hm]

theorem awriteStats_eq (st : StorageManager) (mk : MonthKey) (s : String) (v : MonthlyStats) :
    awriteStats st mk s v = { st with monthly_stats := (awriteStats st mk s v).monthly_stats } := by
  unfold awriteStats
  cases hm : alookup st.monthly_stats mk <;> rfl

theorem effStats_awriteStats (st : StorageManager) (mk : MonthKey) (s : String)
    (v : MonthlyStats) (h : (alookup st.monthly_stats mk).isSome = true)
    (mk' : MonthKey) (s' : String) :
    effStats (awriteStats st mk s v) mk' s' =
      if mk' = mk ∧ s' = s then v else effStats st mk' s' := by
  unfold awriteStats
  cases hm : alookup st.monthly_stats mk with
  | none => simp [hm] at h
  | some d =>
      unfold effStats
      simp only
      rw [alookup_aset]
      by_cases hmk : mk' = mk
      · subst hmk
        simp only [if_pos rfl, if_true, hm]
        unfold agetD
        rw [alookup_aset]
        by_cases hss : s' = s
        · simp [hss]
        · simp [hss, hm]
      · simp only [if_neg hmk, hmk, false_and, if_false]

theorem awriteStats_lookup_isSome (st : StorageManager) (mk : MonthKey) (s : String)
    (v : MonthlyStats) (mk' : MonthKey) :
    (alookup (awriteStats st mk s v).monthly_stats mk').isSome
      = (alookup st.monthly_stats mk').isSome := by
  unfold awriteStats
  cases hm : alookup st.monthly_stats mk with
  | none => rfl
  | some d =>
      simp only
      rw [alookup_aset]
      by_cases hmk : mk' = mk <;> simp [hmk, hm]

theorem simStoreSum_cons (st : StorageManager) (mk : MonthKey) (opName : String)
    (opMax : Int) (p : String × StorageUnit) (l : List (String × StorageUnit)) :
    simStoreSum st mk opName opMax (p :: l)
      = (if p.2.is_free_plan_allowed then simStoreItem opName opMax p (effStats st mk p.1) else 0)
        + simStoreSum st mk opName opMax l := by
  unfold simStoreSum
  simp

theorem simUpdSum_cons (st : StorageManager) (mk : MonthKey) (opName : String)
    (opKb : Int) (p : String × StorageUnit) (l : List (String × StorageUnit)) :
    simUpdSum st mk opName opKb (p :: l)
      = (if p.2.is_free_plan_allowed then simUpdItem opName opKb p (effStats st mk p.1) else 0)
        + simUpdSum st mk opName opKb l := by
  unfold simUpdSum
  simp

theorem simStoreSum_congr {st st' : StorageManager}
    (h : ∀ mk s, effStats st' mk s = effStats st mk s) (mk : MonthKey)
    (opName : String) (opMax : Int) (l : List (String × StorageUnit)) :
    simStoreSum st' mk opName opMax l = simStoreSum st mk opName opMax l := by
  unfold simStoreSum
  simp only [h]

theorem simUpdSum_congr {st st' : StorageManager}
    (h : ∀ mk s, effStats st' mk s = effStats st mk s) (mk : MonthKey)
    (opName : String) (opKb : Int) (l : List (String × StorageUnit)) :
    simUpdSum st' mk opName opKb l = simUpdSum st mk opName opKb l := by
  unfold simUpdSum
  simp only [h]

theorem simFeesLoop_spec (mk : MonthKey) (opName : String) (opMax opKb : Int)
    (l : List (String × StorageUnit)) :
    ∀ (acc : SimAcc), (alookup acc.st.monthly_stats mk).isSome = true →
      (simFeesLoop mk opName opMax opKb l acc).sFee
          = acc.sFee + simStoreSum acc.st mk opName opMax l
        ∧ (simFeesLoop mk opName opMax opKb l acc).uFee
          = acc.uFee + simUpdSum acc.st mk opName opKb l
        ∧ StatePreserved acc.st (simFeesLoop mk opName opMax opKb l acc).st
        ∧ (alookup (simFeesLoop mk opName opMax opKb l acc).st.monthly_stats mk).isSome = true := by
  induction l with
  | nil =>
      intro acc h
      refine ⟨?_, ?_, statePreserved_refl _, h⟩ <;> simp [simFeesLoop, simStoreSum, simUpdSum]
  | cons p rest ih =>
      intro acc h
      obtain ⟨s_name, s_unit⟩ := p
      by_cases hal : s_unit.is_free_plan_allowed = false
      · have hrec := ih acc h
        simp only [simFeesLoop, if_pos hal] at hrec ⊢
        rw [simStoreSum_cons, simUpdSum_cons]
        simp only [hal, Bool.false_eq_true, if_false, zero_add]
        exact hrec
      · have hal' : s_unit.is_free_plan_allowed = true := by
          revert hal
          cases s_unit.is_free_plan_allowed <;> simp
        have hpres := statePreserved_ddReadStats acc.st mk s_name
        have hfst := ddReadStats_fst acc.st mk s_name h
        have hsome : (alookup (ddReadStats acc.st mk s_name).2.monthly_stats mk).isSome = true := by
          rw [ddReadStats_lookup_isSome]
          exact h
        have hrec := ih ⟨(if 0 < (if s_name = opName then opMax else (ddReadStats acc.st mk s_name).1.max_size)
              then acc.sFee + feeItem (if s_name = opName then opMax else (ddReadStats acc.st mk s_name).1.max_size) s_unit.store_fee_per_mb
              else acc.sFee),
            (if 0 < (ddReadStats acc.st mk s_name).1.update_kb_sum + (if s_name = opName then opKb else 0)
              then acc.uFee + feeItem ((ddReadStats acc.st mk s_name).1.update_kb_sum + (if s_name = opName then opKb else 0)) s_unit.update_fee_per_mb
              else acc.uFee),
            (ddReadStats acc.st mk s_name).2⟩ hsome
        simp only [simFeesLoop, hal', Bool.true_eq_false, if_false] at hrec ⊢
        obtain ⟨h1, h2, h3, h4⟩ := hrec
        refine ⟨?_, ?_, statePreserved_trans hpres h3, h4⟩
        · rw [h1, simStoreSum_cons]
          rw [simStoreSum_congr hpres.eff]
          simp only [hal', if_true, hfst]
          unfold simStoreItem
          simp only
          split_ifs <;> omega
        · rw [h2, simUpdSum_cons]
          rw [simUpdSum_congr hpres.eff]
          simp only [hal', if_true, hfst]
          unfold simUpdItem
          simp only
          split_ifs <;> omega

theorem storeIntSum_cons (st : StorageManager) (mk : MonthKey)
    (p : String × StorageUnit) (l : List (String × StorageUnit)) :
    storeIntSum st mk (p :: l)
      = storeIntItem (effStats st mk p.1) p.2 + storeIntSum st mk l := by
  unfold storeIntSum
  simp

theorem storeDecSum_cons (st : StorageManager) (mk : MonthKey)
    (p : String × StorageUnit) (l : List (String × StorageUnit)) :
    storeDecSum st mk (p :: l)
      = storeDecItem (effStats st mk p.1) p.2 + storeDecSum st mk l := by
  unfold storeDecSum
  simp

theorem updIntSum_cons (st : StorageManager) (mk : MonthKey)
    (p : String × StorageUnit) (l : List (String × StorageUnit)) :
    updIntSum st mk (p :: l)
      = updIntItem (mk ∈ st.update_fee_settled_for_month) (effStats st mk p.1) p.2
        + updIntSum st mk l := by
  unfold updIntSum
  simp

theorem updDecSum_cons (st : StorageManager) (mk : MonthKey)
    (p : String × StorageUnit) (l : List (String × StorageUnit)) :
    updDecSum st mk (p :: l)
      = updDecItem (mk ∈ st.update_fee_settled_for_month) (effStats st mk p.1) p.2
        + updDecSum st mk l := by
  unfold updDecSum
  simp

theorem storeIntSum_congr {st st' : StorageManager}
    (h : ∀ mk s, effStats st' mk s = effStats st mk s) (mk : MonthKey)
    (l : List (String × StorageUnit)) :
    storeIntSum st' mk l = storeIntSum st mk l := by
  unfold storeIntSum
  simp only [h]

theorem storeDecSum_congr {st st' : StorageManager}
    (h : ∀ mk s, effStats st' mk s = effStats st mk s) (mk : MonthKey)
    (l : List (String × StorageUnit)) :
    storeDecSum st' mk l = storeDecSum st mk l := by
  unfold storeDecSum
  simp only [h]

theorem updIntSum_congr {st st' : StorageManager}
    (h : ∀ mk s, effStats st' mk s = effStats st mk s)
    (hs : st'.update_fee_settled_for_month = st.update_fee_settled_for_month)
    (mk : MonthKey) (l : List (String × StorageUnit)) :
    updIntSum st' mk l = updIntSum st mk l := by
  unfold updIntSum
  simp only [h, hs]

theorem updDecSum_congr {st st' : StorageManager}
    (h : ∀ mk s, effStats st' mk s = effStats st mk s)
    (hs : st'.update_fee_settled_for_month = st.update_fee_settled_for_month)
    (mk : MonthKey) (l : List (String × StorageUnit)) :
    updDecSum st' mk l = updDecSum st mk l := by
  unfold updDecSum
  simp only [h, hs]

theorem calcFeesLoop_spec (mk : MonthKey) (l : List (String × StorageUnit)) :
    ∀ (acc : CalcAcc), (alookup acc.st.monthly_stats mk).isSome = true →
      (calcFeesLoop mk l acc).sInt = acc.sInt + storeIntSum acc.st mk l
        ∧ (calcFeesLoop mk l acc).uInt = acc.uInt + updIntSum acc.st mk l
        ∧ (calcFeesLoop mk l acc).sDec = acc.sDec + storeDecSum acc.st mk l
        ∧ (calcFeesLoop mk l acc).uDec = acc.uDec + updDecSum acc.st mk l
        ∧ StatePreserved acc.st (calcFeesLoop mk l acc).st
        ∧ (alookup (calcFeesLoop mk l acc).st.monthly_stats mk).isSome = true := by
  induction l with
  | nil =>
      intro acc h
      refine ⟨?_, ?_, ?_, ?_, statePreserved_refl _, h⟩ <;>
        simp [calcFeesLoop, storeIntSum, updIntSum, storeDecSum, updDecSum]
  | cons p rest ih =>
      intro acc h
      obtain ⟨s_name, s_unit⟩ := p
      have hpres := statePreserved_ddReadStats acc.st mk s_name
      have hfst := ddReadStats_fst acc.st mk s_name h
      have hsome : (alookup (ddReadStats acc.st mk s_name).2.monthly_stats mk).isSome = true := by
        rw [ddReadStats_lookup_isSome]
        exact h
      have hrec := ih ⟨(if 0 < (ddReadStats acc.st mk s_name).1.max_size
            then acc.sInt + feeItem (ddReadStats acc.st mk s_name).1.max_size s_unit.store_fee_per_mb
            else acc.sInt),
          (if 0 < (if mk ∈ (ddReadStats acc.st mk s_name).2.update_fee_settled_for_month then 0 else (ddReadStats acc.st mk s_name).1.update_kb_sum)
            then acc.uInt + feeItem (if mk ∈ (ddReadStats acc.st mk s_name).2.update_fee_settled_for_month then 0 else (ddReadStats acc.st mk s_name).1.update_kb_sum) s_unit.update_fee_per_mb
            else acc.uInt),
          (if 0 < (ddReadStats acc.st mk s_name).1.max_size
            then acc.sDec + feeItemDec (ddReadStats acc.st mk s_name).1.max_size s_unit.store_fee_per_mb
            else acc.sDec),
          (if mk ∈ (ddReadStats acc.st mk s_name).2.update_fee_settled_for_month then acc.uDec
            else if 0 < (ddReadStats acc.st mk s_name).1.update_kb_sum
              then acc.uDec + feeItemDec (ddReadStats acc.st mk s_name).1.update_kb_sum s_unit.update_fee_per_mb
              else acc.uDec),
          (ddReadStats acc.st mk s_name).2⟩ hsome
      simp only [calcFeesLoop] at hrec ⊢
      obtain ⟨h1, h2, h3, h4, h5, h6⟩ := hrec
      refine ⟨?_, ?_, ?_, ?_, statePreserved_trans hpres h5, h6⟩
      · rw [h1, storeIntSum_cons, storeIntSum_congr hpres.eff]
        simp only [hfst]
        unfold storeIntItem
        split_ifs <;> omega
      · rw [h2, updIntSum_cons, updIntSum_congr hpres.eff hpres.settled]
        simp only [hfst, hpres.settled]
        unfold updIntItem
        simp only
        split_ifs <;> omega
      · rw [h3, storeDecSum_cons, storeDecSum_congr hpres.eff]
        simp only [hfst]
        unfold storeDecItem
        split_ifs <;> omega
      · rw [h4, updDecSum_cons, updDecSum_congr hpres.eff hpres.settled]
        simp only [hfst, hpres.settled]
        unfold updDecItem
        split_ifs <;> omega

theorem statePreserved_wouldExceed (st : StorageManager) (mk : MonthKey)
    (opName : String) (opMax opKb : Int) :
    StatePreserved st (wouldExceedFreePlanLimit st mk opName opMax opKb).2 := by
  unfold wouldExceedFreePlanLimit
  by_cases hf : st.is_free_plan = false
  · simp only [hf, if_pos rfl]
    exact statePreserved_refl st
  · simp only [hf, if_false]
    have hsome := ensure_lookup_isSome st mk
    have hloop := simFeesLoop_spec mk opName opMax opKb STORAGE_UNITS
      ⟨0, 0, ensureMonthInit st mk⟩ hsome
    exact statePreserved_trans (statePreserved_ensure st mk) hloop.2.2.1

theorem wouldExceed_lookup_isSome (st : StorageManager) (mk : MonthKey)
    (opName : String) (opMax opKb : Int)
    (h : (alookup st.monthly_stats mk).isSome = true) :
    (alookup (wouldExceedFreePlanLimit st mk opName opMax opKb).2.monthly_stats mk).isSome = true := by
  unfold wouldExceedFreePlanLimit
  by_cases hf : st.is_free_plan = false
  · simp only [hf, if_pos rfl]
    exact h
  · simp only [hf, if_false]
    have hsome := ensure_lookup_isSome st mk
    exact (simFeesLoop_spec mk opName opMax opKb STORAGE_UNITS
      ⟨0, 0, ensureMonthInit st mk⟩ hsome).2.2.2

theorem wouldExceed_fst (st : StorageManager) (mk : MonthKey)
    (opName : String) (opMax opKb : Int) :
    (wouldExceedFreePlanLimit st mk opName opMax opKb).1
      = (st.is_free_plan && decide (1000 < simulatedFreeTierFee st mk opName opMax opKb)) := by
  unfold wouldExceedFreePlanLimit
  by_cases hf : st.is_free_plan = false
  · simp [hf]
  · have hf' : st.is_free_plan = true := by
      revert hf
      cases st.is_free_plan <;> simp
    have hens := statePreserved_ensure st mk
    have hsome := ensure_lookup_isSome st mk
    obtain ⟨h1, h2, h3, h4⟩ := simFeesLoop_spec mk opName opMax opKb STORAGE_UNITS
      ⟨0, 0, ensureMonthInit st mk⟩ hsome
    simp only [hf', Bool.true_eq_false, if_false, Bool.true_and]
    rw [h1, h2]
    unfold simulatedFreeTierFee
    rw [simStoreSum_congr hens.eff, simUpdSum_congr hens.eff]
    norm_num

theorem calculateTotalFees_fst (st : StorageManager) (mk : MonthKey) :
    (calculateTotalFees st mk).1
      = ⟨storageFeeOf st mk, updateFeeOf st mk, usageFeeOf st mk⟩ := by
  unfold calculateTotalFees
  have hens := statePreserved_ensure st mk
  have hsome := ensure_lookup_isSome st mk
  obtain ⟨h1, h2, h3, h4, h5, h6⟩ := calcFeesLoop_spec mk
    (storagesToCheck (ensureMonthInit st mk).is_free_plan) ⟨0, 0, 0, 0, ensureMonthInit st mk⟩ hsome
  simp only
  rw [h1, h2, h3, h4]
  unfold storageFeeOf updateFeeOf usageFeeOf storageDecOf updateDecOf
  rw [hens.free]
  rw [storeIntSum_congr hens.eff, updIntSum_congr hens.eff hens.settled,
    storeDecSum_congr hens.eff, updDecSum_congr hens.eff hens.settled]
  norm_num

theorem statePreserved_calculateTotalFees (st : StorageManager) (mk : MonthKey) :
    StatePreserved st (calculateTotalFees st mk).2 := by
  unfold calculateTotalFees
  have hsome := ensure_lookup_isSome st mk
  have hloop := calcFeesLoop_spec mk
    (storagesToCheck (ensureMonthInit st mk).is_free_plan) ⟨0, 0, 0, 0, ensureMonthInit st mk⟩ hsome
  exact statePreserved_trans (statePreserved_ensure st mk) hloop.2.2.2.2.1

theorem calculateTotalFees_lookup_isSome (st : StorageManager) (mk : MonthKey) :
    (alookup (calculateTotalFees st mk).2.monthly_stats mk).isSome = true := by
  unfold calculateTotalFees
  have hsome := ensure_lookup_isSome st mk
  exact (calcFeesLoop_spec mk
    (storagesToCheck (ensureMonthInit st mk).is_free_plan) ⟨0, 0, 0, 0, ensureMonthInit st mk⟩ hsome).2.2.2.2.2

theorem statePreserved_uploadLimitCheck (st : StorageManager) (mk : MonthKey)
    (sn : String) (sz : Int) : StatePreserved st (uploadLimitCheck st mk sn sz).2 := by
  unfold uploadLimitCheck
  split_ifs
  · exact statePreserved_trans (statePreserved_ddReadStats _ _ _)
      (statePreserved_wouldExceed _ _ _ _ _)
  · exact statePreserved_refl st

theorem statePreserved_deleteLimitCheck (st : StorageManager) (mk : MonthKey)
    (sn : String) (sz : Int) : StatePreserved st (deleteLimitCheck st mk sn sz).2 := by
  unfold deleteLimitCheck
  split_ifs
  · exact statePreserved_trans (statePreserved_ddReadStats _ _ _)
      (statePreserved_wouldExceed _ _ _ _ _)
  · exact statePreserved_refl st

theorem statePreserved_updateLimitCheck (st : StorageManager) (mk : MonthKey)
    (sn : String) (os ns : Int) : StatePreserved st (updateLimitCheck st mk sn os ns).2 := by
  unfold updateLimitCheck
  split_ifs
  · exact statePreserved_trans (statePreserved_ddReadStats _ _ _)
      (statePreserved_wouldExceed _ _ _ _ _)
  · exact statePreserved_refl st

theorem uploadLimitCheck_lookup_isSome (st : StorageManager) (mk : MonthKey)
    (sn : String) (sz : Int) (h : (alookup st.monthly_stats mk).isSome = true) :
    (alookup (uploadLimitCheck st mk sn sz).2.monthly_stats mk).isSome = true := by
  unfold uploadLimitCheck
  split_ifs
  · exact wouldExceed_lookup_isSome _ _ _ _ _ (by rw [ddReadStats_lookup_isSome]; exact h)
  · exact h

theorem deleteLimitCheck_lookup_isSome (st : StorageManager) (mk : MonthKey)
    (sn : String) (sz : Int) (h : (alookup st.monthly_stats mk).isSome = true) :
    (alookup (deleteLimitCheck st mk sn sz).2.monthly_stats mk).isSome = true := by
  unfold deleteLimitCheck
  split_ifs
  · exact wouldExceed_lookup_isSome _ _ _ _ _ (by rw [ddReadStats_lookup_isSome]; exact h)
  · exact h

theorem updateLimitCheck_lookup_isSome (st : StorageManager) (mk : MonthKey)
    (sn : String) (os ns : Int) (h : (alookup st.monthly_stats mk).isSome = true) :
    (alookup (updateLimitCheck st mk sn os ns).2.monthly_stats mk).isSome = true := by
  unfold updateLimitCheck
  split_ifs
  · exact wouldExceed_lookup_isSome _ _ _ _ _ (by rw [ddReadStats_lookup_isSome]; exact h)
  · exact h

theorem handleUpload_rejected (st : StorageManager) (t : Timestamp)
    (sn fn : String) (sz : Int) (msg : String)
    (h : (handleUpload st t sn fn sz).1 = .rejected msg) :
    StatePreserved st (handleUpload st t sn fn sz).2 := by
  simp only [handleUpload] at h ⊢
  split_ifs at h ⊢ <;>
    first
      | exact statePreserved_refl st
      | exact statePreserved_ensure st (getMonthKey t)
      | exact statePreserved_trans (statePreserved_ensure st (getMonthKey t))
          (statePreserved_uploadLimitCheck _ _ _ _)
      | simp [uploadCommit] at h

theorem handleDelete_rejected (st : StorageManager) (t : Timestamp)
    (sn fn : String) (msg : String)
    (h : (handleDelete st t sn fn).1 = .rejected msg) :
    StatePreserved st (handleDelete st t sn fn).2 := by
  simp only [handleDelete] at h ⊢
  split_ifs at h ⊢ <;>
    first
      | exact statePreserved_refl st
      | exact statePreserved_ensure st (getMonthKey t)
      | exact statePreserved_trans (statePreserved_ensure st (getMonthKey t))
          (statePreserved_deleteLimitCheck _ _ _ _)
      | simp [deleteCommit] at h

theorem handleUpdate_rejected (st : StorageManager) (t : Timestamp)
    (sn fn : String) (ns : Int) (msg : String)
    (h : (handleUpdate st t sn fn ns).1 = .rejected msg) :
    StatePreserved st (handleUpdate st t sn fn ns).2 := by
  simp only [handleUpdate] at h ⊢
  split_ifs at h ⊢ <;>
    first
      | exact statePreserved_refl st
      | exact statePreserved_ensure st (getMonthKey t)
      | exact statePreserved_trans (statePreserved_ensure st (getMonthKey t))
          (statePreserved_updateLimitCheck _ _ _ _ _)
      | simp [updateCommit] at h

theorem quietTables_refl (st : StorageManager) : QuietTables st st :=
  ⟨rfl, rfl, rfl, rfl⟩

theorem quietTables_trans {st1 st2 st3 : StorageManager}
    (h12 : QuietTables st1 st2) (h23 : QuietTables st2 st3) : QuietTables st1 st3 :=
  ⟨h23.free.trans h12.free, h23.snap.trans h12.snap, h23.settled.trans h12.settled,
    h23.eom.trans h12.eom⟩

theorem quietTables_of_statePreserved {st st' : StorageManager}
    (h : StatePreserved st st') : QuietTables st st' :=
  ⟨h.free, h.snap, h.settled, h.eom⟩

theorem quietTables_awriteStats (st : StorageManager) (mk : MonthKey) (s : String)
    (v : MonthlyStats) : QuietTables st (awriteStats st mk s v) := by
  unfold awriteStats
  cases alookup st.monthly_stats mk <;> exact ⟨rfl, rfl, rfl, rfl⟩

theorem quietTables_commitTail (st4 : StorageManager) (mk : MonthKey)
    (sn : String) (ns : MonthlyStats) :
    QuietTables st4 (calculateTotalFees (awriteStats (ddReadStats st4 mk sn).2 mk sn ns) mk).2 :=
  quietTables_trans (quietTables_of_statePreserved (statePreserved_ddReadStats _ _ _))
    (quietTables_trans (quietTables_awriteStats _ _ _ _)
      (quietTables_of_statePreserved (statePreserved_calculateTotalFees _ _)))

theorem uploadCommit_quiet (st : StorageManager) (mk : MonthKey)
    (sn fn : String) (sz : Int) : QuietTables st (uploadCommit st mk sn fn sz).2 :=
  let st3 : StorageManager := { st with files := aset st.files fn ⟨fn, sz, sn⟩ }
  let st4 : StorageManager := { st3 with current_storage_size := aset st3.current_storage_size sn (agetD st3.current_storage_size sn 0 + sz) }
  let r := ddReadStats st4 mk sn
  let nsv : MonthlyStats :=
    { max_size := max r.1.max_size (agetD r.2.current_storage_size sn 0),
      update_kb_sum := r.1.update_kb_sum + sz }
  quietTables_trans (⟨rfl, rfl, rfl, rfl⟩ : QuietTables st st4)
    (quietTables_commitTail st4 mk sn nsv)

theorem deleteCommit_quiet (st : StorageManager) (mk : MonthKey)
    (sn fn : String) (file : File) : QuietTables st (deleteCommit st mk sn fn file).2 :=
  let st3 : StorageManager := { st with current_storage_size := aset st.current_storage_size file.storage (agetD st.current_storage_size file.storage 0 - file.size) }
  let st4 : StorageManager := { st3 with files := aerase st3.files fn }
  let r := ddReadStats st4 mk sn
  let nsv : MonthlyStats :=
    { max_size := r.1.max_size, update_kb_sum := r.1.update_kb_sum + file.size }
  quietTables_trans (⟨rfl, rfl, rfl, rfl⟩ : QuietTables st st4)
    (quietTables_commitTail st4 mk sn nsv)

theorem updateCommit_quiet (st : StorageManager) (mk : MonthKey)
    (sn fn : String) (os ns : Int) : QuietTables st (updateCommit st mk sn fn os ns).2 :=
  let st3 : StorageManager := { st with current_storage_size := aset st.current_storage_size sn (agetD st.current_storage_size sn 0 + (ns - os)) }
  let r := ddReadStats st3 mk sn
  let nsv : MonthlyStats :=
    { max_size := max r.1.max_size (agetD r.2.current_storage_size sn 0),
      update_kb_sum := r.1.update_kb_sum + (os + ns) }
  let st5 := awriteStats r.2 mk sn nsv
  let st6 : StorageManager := { st5 with files := amodify (fun f => { f with size := ns }) st5.files fn }
  quietTables_trans (⟨rfl, rfl, rfl, rfl⟩ : QuietTables st st3)
    (quietTables_trans (quietTables_of_statePreserved (statePreserved_ddReadStats st3 mk sn))
      (quietTables_trans (quietTables_awriteStats r.2 mk sn nsv)
        (quietTables_trans (⟨rfl, rfl, rfl, rfl⟩ : QuietTables st5 st6)
          (quietTables_of_statePreserved (statePreserved_calculateTotalFees st6 mk)))))

theorem handleUpload_quiet (st : StorageManager) (t : Timestamp)
    (sn fn : String) (sz : Int) : QuietTables st (handleUpload st t sn fn sz).2 := by
  have hpre : QuietTables st (uploadLimitCheck (ensureMonthInit st (getMonthKey t)) (getMonthKey t) sn sz).2 :=
    quietTables_of_statePreserved (statePreserved_trans
      (statePreserved_ensure st (getMonthKey t)) (statePreserved_uploadLimitCheck _ _ _ _))
  simp only [handleUpload]
  split_ifs
  · exact quietTables_refl st
  · exact quietTables_refl st
  · exact quietTables_refl st
  · exact hpre
  · exact quietTables_trans hpre (uploadCommit_quiet _ _ _ _ _)

theorem handleDelete_quiet (st : StorageManager) (t : Timestamp)
    (sn fn : String) : QuietTables st (handleDelete st t sn fn).2 := by
  have hens : QuietTables st (ensureMonthInit st (getMonthKey t)) :=
    quietTables_of_statePreserved (statePreserved_ensure st (getMonthKey t))
  have hpre : ∀ sz, QuietTables st (deleteLimitCheck (ensureMonthInit st (getMonthKey t)) (getMonthKey t) sn sz).2 :=
    fun sz => quietTables_of_statePreserved (statePreserved_trans
      (statePreserved_ensure st (getMonthKey t)) (statePreserved_deleteLimitCheck _ _ _ _))
  simp only [handleDelete]
  split_ifs
  · exact hens
  · exact hens
  · exact hens
  · exact hens
  · exact hpre _
  · exact quietTables_trans (hpre _) (deleteCommit_quiet _ _ _ _ _)

theorem handleUpdate_quiet (st : StorageManager) (t : Timestamp)
    (sn fn : String) (ns : Int) : QuietTables st (handleUpdate st t sn fn ns).2 := by
  have hens : QuietTables st (ensureMonthInit st (getMonthKey t)) :=
    quietTables_of_statePreserved (statePreserved_ensure st (getMonthKey t))
  have hpre : ∀ os, QuietTables st (updateLimitCheck (ensureMonthInit st (getMonthKey t)) (getMonthKey t) sn os ns).2 :=
    fun os => quietTables_of_statePreserved (statePreserved_trans
      (statePreserved_ensure st (getMonthKey t)) (statePreserved_updateLimitCheck _ _ _ _ _))
  simp only [handleUpdate]
  split_ifs
  · exact hens
  · exact hens
  · exact hens
  · exact hens
  · exact hpre _
  · exact quietTables_trans (hpre _) (updateCommit_quiet _ _ _ _ _ _)

theorem mem_addSettled_self (l : List MonthKey) (mk : MonthKey) : mk ∈ addSettled l mk := by
  unfold addSettled
  split_ifs with h
  · exact h
  · simp

theorem mem_addSettled_of_mem (l : List MonthKey) (mk mk' : MonthKey)
    (h : mk' ∈ l) : mk' ∈ addSettled l mk := by
  unfold addSettled
  split_ifs
  · exact h
  · simp [h]

theorem alookup_isSome_agetD {κ α : Type} [DecidableEq κ] (d : AList κ α) (k : κ)
    (dflt : α) (h : (alookup d k).isSome = true) : alookup d k = some (agetD d k dflt) := by
  cases hv : alookup d k
  · simp [hv] at h
  · simp [agetD, hv]

theorem effStats_of_present_congr (st st' : StorageManager) (mk : MonthKey) (s : String)
    (hms : st'.monthly_stats = st.monthly_stats)
    (h : (alookup st.monthly_stats mk).isSome = true) :
    effStats st' mk s = effStats st mk s := by
  unfold effStats
  rw [hms]
  cases hm : alookup st.monthly_stats mk
  · simp [hm] at h
  · simp

theorem ensure_lookup_self_none (st : StorageManager) (mk : MonthKey)
    (h : alookup st.monthly_stats mk = none) :
    alookup (ensureMonthInit st mk).monthly_stats mk
      = some (seededStats st.last_month_eom_storage_sizes) := by
  unfold ensureMonthInit
  simp [h, alookup_append, alookup]

theorem handleCalc_settled_eq (st : StorageManager) (t : Timestamp) :
    (handleCalc st t).2.update_fee_settled_for_month
      = addSettled st.update_fee_settled_for_month (getPreviousMonthKey t) := by
  have hA := statePreserved_calculateTotalFees st (getPreviousMonthKey t)
  simp only [handleCalc]
  split_ifs <;>
    · show addSettled (calculateTotalFees st (getPreviousMonthKey t)).2.update_fee_settled_for_month
          (getPreviousMonthKey t) = _
      rw [hA.settled]

theorem handleCalc_settled_self (st : StorageManager) (t : Timestamp) :
    getPreviousMonthKey t ∈ (handleCalc st t).2.update_fee_settled_for_month := by
  rw [handleCalc_settled_eq]
  exact mem_addSettled_self _ _

theorem handleCalc_settled_mono (st : StorageManager) (t : Timestamp) (mk' : MonthKey)
    (h : mk' ∈ st.update_fee_settled_for_month) :
    mk' ∈ (handleCalc st t).2.update_fee_settled_for_month := by
  rw [handleCalc_settled_eq]
  exact mem_addSettled_of_mem _ _ _ h

theorem handleCalc_fees (st : StorageManager) (t : Timestamp) :
    (handleCalc st t).1.fees = (calculateTotalFees st (getPreviousMonthKey t)).1 := by
  simp only [handleCalc]

theorem handleCalc_sizes (st : StorageManager) (t : Timestamp) :
    (handleCalc st t).1.kb_a1
        = agetD (agetD (handleCalc st t).2.calc_reported_sizes_snapshot (getPreviousMonthKey t) []) "storage_A1" 0
      ∧ (handleCalc st t).1.kb_a2
        = agetD (agetD (handleCalc st t).2.calc_reported_sizes_snapshot (getPreviousMonthKey t) []) "storage_A2" 0
      ∧ (handleCalc st t).1.kb_b1
        = agetD (agetD (handleCalc st t).2.calc_reported_sizes_snapshot (getPreviousMonthKey t) []) "storage_B1" 0
      ∧ (handleCalc st t).1.kb_b2
        = agetD (agetD (handleCalc st t).2.calc_reported_sizes_snapshot (getPreviousMonthKey t) []) "storage_B2" 0 := by
  simp only [handleCalc]
  exact ⟨trivial, trivial, trivial, trivial⟩

theorem handleCalc_snap_lookup (st : StorageManager) (t : Timestamp) (mk' : MonthKey)
    (v : AList String Int)
    (h : alookup st.calc_reported_sizes_snapshot mk' = some v) :
    alookup (handleCalc st t).2.calc_reported_sizes_snapshot mk' = some v := by
  have hA := statePreserved_calculateTotalFees st (getPreviousMonthKey t)
  simp only [handleCalc]
  split_ifs with hb
  · by_cases heq : mk' = getPreviousMonthKey t
    · subst heq
      rw [hA.snap, h] at hb
      simp at hb
    · have hgen : ∀ w, alookup
          (aset (calculateTotalFees st (getPreviousMonthKey t)).2.calc_reported_sizes_snapshot
            (getPreviousMonthKey t) w) mk' = some v := by
        intro w
        rw [alookup_aset, if_neg heq, hA.snap]
        exact h
      exact hgen _
  · show alookup (calculateTotalFees st (getPreviousMonthKey t)).2.calc_reported_sizes_snapshot mk' = some v
    rw [hA.snap]
    exact h

theorem handleCalc_snapshot_isSome (st : StorageManager) (t : Timestamp) :
    (alookup (handleCalc st t).2.calc_reported_sizes_snapshot (getPreviousMonthKey t)).isSome = true := by
  have hA := statePreserved_calculateTotalFees st (getPreviousMonthKey t)
  simp only [handleCalc]
  split_ifs with hb
  · have hgen : ∀ w, (alookup
        (aset (calculateTotalFees st (getPreviousMonthKey t)).2.calc_reported_sizes_snapshot
          (getPreviousMonthKey t) w) (getPreviousMonthKey t)).isSome = true := by
      intro w
      rw [alookup_aset]
      simp
    exact hgen _
  · show (alookup (calculateTotalFees st (getPreviousMonthKey t)).2.calc_reported_sizes_snapshot
        (getPreviousMonthKey t)).isSome = true
    cases hv : alookup (calculateTotalFees st (getPreviousMonthKey t)).2.calc_reported_sizes_snapshot
        (getPreviousMonthKey t)
    · rw [hv] at hb
      simp at hb
    · simp

theorem handleCalc_effStats (st : StorageManager) (t : Timestamp) (s : String) :
    effStats (handleCalc st t).2 (getPreviousMonthKey t) s
      = effStats st (getPreviousMonthKey t) s := by
  have hA := statePreserved_calculateTotalFees st (getPreviousMonthKey t)
  have hsome := calculateTotalFees_lookup_isSome st (getPreviousMonthKey t)
  simp only [handleCalc]
  split_ifs <;>
    · refine (effStats_of_present_congr _ _ _ _ ?_ hsome).trans (hA.eff _ _)
      rfl

theorem runOp_snap_lookup (st : StorageManager) (op : Op) (mk' : MonthKey)
    (v : AList String Int)
    (h : alookup st.calc_reported_sizes_snapshot mk' = some v) :
    alookup (runOp st op).2.calc_reported_sizes_snapshot mk' = some v := by
  cases op with
  | upload t sn fn sz =>
      simp only [runOp]
      rw [(handleUpload_quiet st t sn fn sz).snap]
      exact h
  | delete t sn fn =>
      simp only [runOp]
      rw [(handleDelete_quiet st t sn fn).snap]
      exact h
  | update t sn fn ns =>
      simp only [runOp]
      rw [(handleUpdate_quiet st t sn fn ns).snap]
      exact h
  | closeMonth t =>
      simp only [runOp]
      exact handleCalc_snap_lookup st t mk' v h

theorem runOp_settled_mem (st : StorageManager) (op : Op) (mk' : MonthKey)
    (h : mk' ∈ st.update_fee_settled_for_month) :
    mk' ∈ (runOp st op).2.update_fee_settled_for_month := by
  cases op with
  | upload t sn fn sz =>
      simp only [runOp]
      rw [(handleUpload_quiet st t sn fn sz).settled]
      exact h
  | delete t sn fn =>
      simp only [runOp]
      rw [(handleDelete_quiet st t sn fn).settled]
      exact h
  | update t sn fn ns =>
      simp only [runOp]
      rw [(handleUpdate_quiet st t sn fn ns).settled]
      exact h
  | closeMonth t =>
      simp only [runOp]
      exact handleCalc_settled_mono st t mk' h

theorem applyOps_snap_lookup (ops : List Op) :
    ∀ (st : StorageManager) (mk' : MonthKey) (v : AList String Int),
      alookup st.calc_reported_sizes_snapshot mk' = some v →
      alookup (applyOps st ops).calc_reported_sizes_snapshot mk' = some v := by
  induction ops with
  | nil => intro st mk' v h; exact h
  | cons op rest ih =>
      intro st mk' v h
      exact ih (runOp st op).2 mk' v (runOp_snap_lookup st op mk' v h)

theorem applyOps_settled_mem (ops : List Op) :
    ∀ (st : StorageManager) (mk' : MonthKey),
      mk' ∈ st.update_fee_settled_for_month →
      mk' ∈ (applyOps st ops).update_fee_settled_for_month := by
  induction ops with
  | nil => intro st mk' h; exact h
  | cons op rest ih =>
      intro st mk' h
      exact ih (runOp st op).2 mk' (runOp_settled_mem st op mk' h)

theorem updIntSum_settled (st : StorageManager) (mk : MonthKey)
    (l : List (String × StorageUnit))
    (h : mk ∈ st.update_fee_settled_for_month) : updIntSum st mk l = 0 := by
  unfold updIntSum
  induction l with
  | nil => rfl
  | cons p rest ih => simp [updIntItem, h, ih]

theorem updDecSum_settled (st : StorageManager) (mk : MonthKey)
    (l : List (String × StorageUnit))
    (h : mk ∈ st.update_fee_settled_for_month) : updDecSum st mk l = 0 := by
  unfold updDecSum
  induction l with
  | nil => rfl
  | cons p rest ih => simp [updDecItem, h, ih]

theorem updateFeeOf_settled (st : StorageManager) (mk : MonthKey)
    (h : mk ∈ st.update_fee_settled_for_month) : updateFeeOf st mk = 0 :=
  updIntSum_settled st mk _ h

theorem updateDecOf_settled (st : StorageManager) (mk : MonthKey)
    (h : mk ∈ st.update_fee_settled_for_month) : updateDecOf st mk = 0 :=
  updDecSum_settled st mk _ h

theorem unitFilesSize_cons (p : String × File) (d : AList String File) (s : String) :
    unitFilesSize (p :: d) s
      = (if p.2.storage = s then p.2.size else 0) + unitFilesSize d s := by
  unfold unitFilesSize
  simp

theorem unitFilesSize_append_single (d : AList String File) (k : String) (f : File)
    (s : String) :
    unitFilesSize (d ++ [(k, f)]) s
      = unitFilesSize d s + (if f.storage = s then f.size else 0) := by
  unfold unitFilesSize
  simp

theorem unitFilesSize_aerase (d : AList String File) (k : String) (f : File) (s : String)
    (h : alookup d k = some f) :
    unitFilesSize (aerase d k) s
      = unitFilesSize d s - (if f.storage = s then f.size else 0) := by
  induction d with
  | nil => simp [alookup] at h
  | cons p rest ih =>
      obtain ⟨k0, v0⟩ := p
      by_cases hk : k = k0
      · simp only [alookup, if_pos hk] at h
        injection h with hv
        subst hv
        simp only [aerase, if_pos hk, unitFilesSize_cons]
        omega
      · simp only [alookup, if_neg hk] at h
        simp only [aerase, if_neg hk, unitFilesSize_cons, ih h]
        omega

theorem unitFilesSize_amodify (g : File → File) (d : AList String File) (k : String)
    (f : File) (s : String) (h : alookup d k = some f) :
    unitFilesSize (amodify g d k) s
      = unitFilesSize d s - (if f.storage = s then f.size else 0)
        + (if (g f).storage = s then (g f).size else 0) := by
  induction d with
  | nil => simp [alookup] at h
  | cons p rest ih =>
      obtain ⟨k0, v0⟩ := p
      by_cases hk : k = k0
      · simp only [alookup, if_pos hk] at h
        injection h with hv
        subst hv
        simp only [amodify, if_pos hk, unitFilesSize_cons]
        omega
      · simp only [alookup, if_neg hk] at h
        simp only [amodify, if_neg hk, unitFilesSize_cons, ih h]
        omega

theorem conservation_congr (st st' : StorageManager)
    (hf : st'.files = st.files) (hc : st'.current_storage_size = st.current_storage_size)
    (h : Conservation st) : Conservation st' := by
  intro s
  rw [hf, hc]
  exact h s

theorem awriteStats_files (st : StorageManager) (mk : MonthKey) (s : String)
    (v : MonthlyStats) : (awriteStats st mk s v).files = st.files := by
  unfold awriteStats
  cases alookup st.monthly_stats mk <;> rfl

theorem awriteStats_css (st : StorageManager) (mk : MonthKey) (s : String)
    (v : MonthlyStats) : (awriteStats st mk s v).current_storage_size = st.current_storage_size := by
  unfold awriteStats
  cases alookup st.monthly_stats mk <;> rfl

theorem uploadCommit_conservation (st : StorageManager) (mk : MonthKey)
    (sn fn : String) (sz : Int) (hnone : alookup st.files fn = none)
    (h : Conservation st) : Conservation (uploadCommit st mk sn fn sz).2 := by
  have h4 : Conservation { st with
      files := aset st.files fn ⟨fn, sz, sn⟩,
      current_storage_size := aset st.current_storage_size sn (agetD st.current_storage_size sn 0 + sz) } := by
    intro s
    show agetD (aset st.current_storage_size sn (agetD st.current_storage_size sn 0 + sz)) s 0
        = unitFilesSize (aset st.files fn ⟨fn, sz, sn⟩) s
    rw [aset_of_alookup_none _ _ _ hnone, unitFilesSize_append_single, agetD_aset]
    have hcs := h s
    by_cases hs : s = sn
    · subst hs
      simp only [if_pos rfl, if_true]
      omega
    · rw [if_neg hs]
      have : ¬ (⟨fn, sz, sn⟩ : File).storage = s := fun hh => hs (by
        have : sn = s := hh
        exact this.symm)
      rw [if_neg this]
      omega
  refine conservation_congr _ _ ?_ ?_ h4
  · exact ((statePreserved_calculateTotalFees _ _).files).trans
      ((awriteStats_files _ _ _ _).trans ((statePreserved_ddReadStats _ _ _).files.trans rfl))
  · exact ((statePreserved_calculateTotalFees _ _).css).trans
      ((awriteStats_css _ _ _ _).trans ((statePreserved_ddReadStats _ _ _).css.trans rfl))

theorem deleteCommit_conservation (st : StorageManager) (mk : MonthKey)
    (sn fn : String) (file : File) (hsome : alookup st.files fn = some file)
    (h : Conservation st) : Conservation (deleteCommit st mk sn fn file).2 := by
  have h4 : Conservation { st with
      current_storage_size := aset st.current_storage_size file.storage (agetD st.current_storage_size file.storage 0 - file.size),
      files := aerase st.files fn } := by
    intro s
    show agetD (aset st.current_storage_size file.storage (agetD st.current_storage_size file.storage 0 - file.size)) s 0
        = unitFilesSize (aerase st.files fn) s
    rw [unitFilesSize_aerase _ _ _ _ hsome, agetD_aset]
    have hcs := h s
    by_cases hs : s = file.storage
    · subst hs
      simp only [if_pos rfl, if_true]
      omega
    · rw [if_neg hs]
      have : ¬ file.storage = s := fun hh => hs hh.symm
      rw [if_neg this]
      omega
  refine conservation_congr _ _ ?_ ?_ h4
  · exact ((statePreserved_calculateTotalFees _ _).files).trans
      ((awriteStats_files _ _ _ _).trans ((statePreserved_ddReadStats _ _ _).files.trans rfl))
  · exact ((statePreserved_calculateTotalFees _ _).css).trans
      ((awriteStats_css _ _ _ _).trans ((statePreserved_ddReadStats _ _ _).css.trans rfl))

theorem updateCommit_conservation (st : StorageManager) (mk : MonthKey)
    (sn fn : String) (os ns : Int) (file : File)
    (hsome : alookup st.files fn = some file)
    (hos : file.size = os) (hst : file.storage = sn)
    (h : Conservation st) : Conservation (updateCommit st mk sn fn os ns).2 := by
  have h4 : Conservation { st with
      current_storage_size := aset st.current_storage_size sn (agetD st.current_storage_size sn 0 + (ns - os)),
      files := amodify (fun f => { f with size := ns }) st.files fn } := by
    intro s
    show agetD (aset st.current_storage_size sn (agetD st.current_storage_size sn 0 + (ns - os))) s 0
        = unitFilesSize (amodify (fun f => { f with size := ns }) st.files fn) s
    rw [unitFilesSize_amodify _ _ _ _ _ hsome, agetD_aset]
    have hcs := h s
    have hgst : ({ file with size := ns } : File).storage = file.storage := rfl
    have hgsz : ({ file with size := ns } : File).size = ns := rfl
    by_cases hs : s = sn
    · subst hs
      simp only [if_pos rfl, if_true]
      rw [hgst, hst]
      simp only [if_pos rfl, if_true, hgsz]
      omega
    · rw [if_neg hs]
      have hx : ¬ file.storage = s := by
        rw [hst]
        exact fun hh => hs hh.symm
      rw [if_neg hx, hgst, if_neg hx]
      omega
  refine conservation_congr _ _ ?_ ?_ h4
  · exact (((statePreserved_calculateTotalFees _ _).files).trans rfl).trans
      ((congrArg (fun d => amodify (fun f => { f with size := ns }) d fn)
        ((awriteStats_files _ _ _ _).trans (statePreserved_ddReadStats _ _ _).files)).trans rfl)
  · exact ((statePreserved_calculateTotalFees _ _).css).trans
      (((awriteStats_css _ _ _ _).trans ((statePreserved_ddReadStats _ _ _).css.trans rfl)))

theorem handleUpload_conservation (st : StorageManager) (t : Timestamp)
    (sn fn : String) (sz : Int) (h : Conservation st) :
    Conservation (handleUpload st t sn fn sz).2 := by
  have hpre : StatePreserved st
      (uploadLimitCheck (ensureMonthInit st (getMonthKey t)) (getMonthKey t) sn sz).2 :=
    statePreserved_trans (statePreserved_ensure st (getMonthKey t))
      (statePreserved_uploadLimitCheck _ _ _ _)
  simp only [handleUpload]
  split_ifs with h1 h2 h3 h4
  · exact h
  · exact h
  · exact h
  · exact conservation_congr _ _ hpre.files hpre.css h
  · refine uploadCommit_conservation _ _ _ _ _ ?_ (conservation_congr _ _ hpre.files hpre.css h)
    rw [hpre.files]
    cases hv : alookup st.files fn
    · rfl
    · rw [hv] at h1
      simp at h1

theorem handleDelete_conservation (st : StorageManager) (t : Timestamp)
    (sn fn : String) (h : Conservation st) :
    Conservation (handleDelete st t sn fn).2 := by
  have hens := statePreserved_ensure st (getMonthKey t)
  have hpre : ∀ sz, StatePreserved st
      (deleteLimitCheck (ensureMonthInit st (getMonthKey t)) (getMonthKey t) sn sz).2 :=
    fun sz => statePreserved_trans hens (statePreserved_deleteLimitCheck _ _ _ _)
  simp only [handleDelete]
  split_ifs with h1 h2 h3 h4 h5
  · exact conservation_congr _ _ hens.files hens.css h
  · exact conservation_congr _ _ hens.files hens.css h
  · exact conservation_congr _ _ hens.files hens.css h
  · exact conservation_congr _ _ hens.files hens.css h
  · exact conservation_congr _ _ (hpre _).files (hpre _).css h
  · refine deleteCommit_conservation _ _ _ _ _ ?_ (conservation_congr _ _ (hpre _).files (hpre _).css h)
    rw [(hpre _).files]
    have hs : (alookup (ensureMonthInit st (getMonthKey t)).files fn).isSome = true := by
      cases hv : alookup (ensureMonthInit st (getMonthKey t)).files fn
      · rw [hv] at h3
        simp at h3
      · rfl
    rw [hens.files] at hs ⊢
    exact alookup_isSome_agetD _ _ _ hs

theorem handleUpdate_conservation (st : StorageManager) (t : Timestamp)
    (sn fn : String) (ns : Int) (h : Conservation st) :
    Conservation (handleUpdate st t sn fn ns).2 := by
  have hens := statePreserved_ensure st (getMonthKey t)
  have hpre : ∀ os, StatePreserved st
      (updateLimitCheck (ensureMonthInit st (getMonthKey t)) (getMonthKey t) sn os ns).2 :=
    fun os => statePreserved_trans hens (statePreserved_updateLimitCheck _ _ _ _ _)
  simp only [handleUpdate]
  split_ifs with h1 h2 h3 h4 h5
  · exact conservation_congr _ _ hens.files hens.css h
  · exact conservation_congr _ _ hens.files hens.css h
  · exact conservation_congr _ _ hens.files hens.css h
  · exact conservation_congr _ _ hens.files hens.css h
  · exact conservation_congr _ _ (hpre _).files (hpre _).css h
  · have hs : (alookup (ensureMonthInit st (getMonthKey t)).files fn).isSome = true := by
      cases hv : alookup (ensureMonthInit st (getMonthKey t)).files fn
      · rw [hv] at h3
        simp at h3
      · rfl
    refine updateCommit_conservation _ _ _ _ _ _ _ ?_ rfl (not_not.mp h4)
      (conservation_congr _ _ (hpre _).files (hpre _).css h)
    rw [(hpre _).files, hens.files]
    rw [hens.files] at hs
    exact alookup_isSome_agetD _ _ _ hs

theorem runOp_conservation (st : StorageManager) (op : Op) (h : Conservation st) :
    Conservation (runOp st op).2 := by
  cases op with
  | upload t sn fn sz =>
      simp only [runOp]
      exact handleUpload_conservation st t sn fn sz h
  | delete t sn fn =>
      simp only [runOp]
      exact handleDelete_conservation st t sn fn h
  | update t sn fn ns =>
      simp only [runOp]
      exact handleUpdate_conservation st t sn fn ns h
  | closeMonth t =>
      simp only [runOp]
      have hA := statePreserved_calculateTotalFees st (getPreviousMonthKey t)
      refine conservation_congr _ _ ?_ ?_ h
      · simp only [handleCalc]
        split_ifs <;>
          · show (calculateTotalFees st (getPreviousMonthKey t)).2.files = st.files
            exact hA.files
      · simp only [handleCalc]
        split_ifs <;>
          · show (calculateTotalFees st (getPreviousMonthKey t)).2.current_storage_size
                = st.current_storage_size
            exact hA.css

theorem applyOps_conservation (ops : List Op) :
    ∀ st : StorageManager, Conservation st → Conservation (applyOps st ops) := by
  induction ops with
  | nil => intro st h; exact h
  | cons op rest ih =>
      intro st h
      exact ih (runOp st op).2 (runOp_conservation st op h)

theorem initManager_conservation (b : Bool) : Conservation (initManager b) := by
  intro s
  rfl

theorem effMono_refl (st : StorageManager) : EffMono st st :=
  fun _ _ => ⟨le_refl _, le_refl _⟩

theorem effMono_trans {st1 st2 st3 : StorageManager}
    (h1 : EffMono st1 st2) (h2 : EffMono st2 st3) : EffMono st1 st3 :=
  fun mk s => ⟨(h1 mk s).1.trans (h2 mk s).1, (h1 mk s).2.trans (h2 mk s).2⟩

theorem effMono_of_statePreserved {st st' : StorageManager}
    (h : StatePreserved st st') : EffMono st st' := by
  intro mk s
  rw [h.eff]
  exact ⟨le_refl _, le_refl _⟩

theorem commitTail_effMono (st4 : StorageManager) (ns : MonthlyStats) (mk : MonthKey)
    (sn : String) (hp : (alookup st4.monthly_stats mk).isSome = true)
    (hmax : (ddReadStats st4 mk sn).1.max_size ≤ ns.max_size)
    (hukb : (ddReadStats st4 mk sn).1.update_kb_sum ≤ ns.update_kb_sum) :
    EffMono st4 (calculateTotalFees (awriteStats (ddReadStats st4 mk sn).2 mk sn ns) mk).2 := by
  intro mk' s'
  have hpR : (alookup (ddReadStats st4 mk sn).2.monthly_stats mk).isSome = true := by
    rw [ddReadStats_lookup_isSome]
    exact hp
  have hcal := (statePreserved_calculateTotalFees (awriteStats (ddReadStats st4 mk sn).2 mk sn ns) mk).eff mk' s'
  have hw := effStats_awriteStats (ddReadStats st4 mk sn).2 mk sn ns hpR mk' s'
  have hdd := (statePreserved_ddReadStats st4 mk sn).eff mk' s'
  have hfst := ddReadStats_fst st4 mk sn hp
  rw [hcal, hw]
  by_cases hc : mk' = mk ∧ s' = sn
  · rw [if_pos hc]
    obtain ⟨hc1, hc2⟩ := hc
    subst hc1
    subst hc2
    rw [← hfst]
    exact ⟨hmax, hukb⟩
  · rw [if_neg hc, hdd]
    exact ⟨le_refl _, le_refl _⟩

theorem commitTailModify_effMono (st4 : StorageManager) (ns : MonthlyStats) (mk : MonthKey)
    (sn fn : String) (g : File → File)
    (hp : (alookup st4.monthly_stats mk).isSome = true)
    (hmax : (ddReadStats st4 mk sn).1.max_size ≤ ns.max_size)
    (hukb : (ddReadStats st4 mk sn).1.update_kb_sum ≤ ns.update_kb_sum) :
    EffMono st4 (calculateTotalFees
      { awriteStats (ddReadStats st4 mk sn).2 mk sn ns with
          files := amodify g (awriteStats (ddReadStats st4 mk sn).2 mk sn ns).files fn } mk).2 := by
  have hbase := commitTail_effMono st4 ns mk sn hp hmax hukb
  intro mk' s'
  have hcal := (statePreserved_calculateTotalFees
    { awriteStats (ddReadStats st4 mk sn).2 mk sn ns with
        files := amodify g (awriteStats (ddReadStats st4 mk sn).2 mk sn ns).files fn } mk).eff mk' s'
  have hcal2 := (statePreserved_calculateTotalFees (awriteStats (ddReadStats st4 mk sn).2 mk sn ns) mk).eff mk' s'
  have hx := hbase mk' s'
  rw [hcal2] at hx
  rw [hcal]
  exact hx

theorem uploadCommit_effMono (st : StorageManager) (mk : MonthKey) (sn fn : String)
    (sz : Int) (hp : (alookup st.monthly_stats mk).isSome = true) (hsz : 0 ≤ sz) :
    EffMono st (uploadCommit st mk sn fn sz).2 := by
  refine effMono_trans ?_ (commitTail_effMono _ _ mk sn ?_ ?_ ?_)
  · exact fun mk' s' => ⟨le_refl _, le_refl _⟩
  · exact hp
  · exact le_max_left _ _
  · exact le_add_of_nonneg_right hsz

theorem deleteCommit_effMono (st : StorageManager) (mk : MonthKey) (sn fn : String)
    (file : File) (hp : (alookup st.monthly_stats mk).isSome = true)
    (hfsz : 0 ≤ file.size) :
    EffMono st (deleteCommit st mk sn fn file).2 := by
  refine effMono_trans ?_ (commitTail_effMono _ _ mk sn ?_ ?_ ?_)
  · exact fun mk' s' => ⟨le_refl _, le_refl _⟩
  · exact hp
  · exact le_refl _
  · exact le_add_of_nonneg_right hfsz

theorem updateCommit_effMono (st : StorageManager) (mk : MonthKey) (sn fn : String)
    (os ns : Int) (hp : (alookup st.monthly_stats mk).isSome = true)
    (hsum : 0 ≤ os + ns) :
    EffMono st (updateCommit st mk sn fn os ns).2 := by
  refine effMono_trans ?_ (commitTailModify_effMono _ _ mk sn fn _ ?_ ?_ ?_)
  · exact fun mk' s' => ⟨le_refl _, le_refl _⟩
  · exact hp
  · exact le_max_left _ _
  · exact le_add_of_nonneg_right hsum

theorem alookup_mem {κ α : Type} [DecidableEq κ] (d : AList κ α) (k : κ) (v : α)
    (h : alookup d k = some v) : (k, v) ∈ d := by
  induction d with
  | nil => simp [alookup] at h
  | cons p rest ih =>
      obtain ⟨k0, v0⟩ := p
      by_cases hk : k = k0
      · simp only [alookup, if_pos hk] at h
        injection h with hv
        subst hk
        subst hv
        exact List.mem_cons_self _ _
      · simp only [alookup, if_neg hk] at h
        exact List.mem_cons_of_mem _ (ih h)

theorem filesNonneg_aset (d : AList String File) (k : String) (f : File)
    (hd : FilesNonneg d) (hf : 0 ≤ f.size) : FilesNonneg (aset d k f) := by
  induction d with
  | nil =>
      intro p hp
      simp [aset] at hp
      rw [hp]
      exact hf
  | cons q rest ih =>
      obtain ⟨k0, v0⟩ := q
      have hd0 : 0 ≤ v0.size := hd (k0, v0) (List.mem_cons_self _ _)
      have hdrest : FilesNonneg rest := fun p hp => hd p (List.mem_cons_of_mem _ hp)
      intro p hp
      by_cases hk : k = k0
      · simp only [aset, if_pos hk] at hp
        rcases List.mem_cons.mp hp with h1 | h2
        · rw [h1]
          exact hf
        · exact hdrest p h2
      · simp only [aset, if_neg hk] at hp
        rcases List.mem_cons.mp hp with h1 | h2
        · rw [h1]
          exact hd0
        · exact ih hdrest p h2

theorem filesNonneg_aerase (d : AList String File) (k : String)
    (hd : FilesNonneg d) : FilesNonneg (aerase d k) := by
  induction d with
  | nil => intro p hp; simp [aerase] at hp
  | cons q rest ih =>
      obtain ⟨k0, v0⟩ := q
      have hd0 : 0 ≤ v0.size := hd (k0, v0) (List.mem_cons_self _ _)
      have hdrest : FilesNonneg rest := fun p hp => hd p (List.mem_cons_of_mem _ hp)
      intro p hp
      by_cases hk : k = k0
      · simp only [aerase, if_pos hk] at hp
        exact hdrest p hp
      · simp only [aerase, if_neg hk] at hp
        rcases List.mem_cons.mp hp with h1 | h2
        · rw [h1]
          exact hd0
        · exact ih hdrest p h2

theorem filesNonneg_amodify (g : File → File) (d : AList String File) (k : String)
    (hd : FilesNonneg d) (hg : ∀ f, 0 ≤ (g f).size) : FilesNonneg (amodify g d k) := by
  induction d with
  | nil => intro p hp; simp [amodify] at hp
  | cons q rest ih =>
      obtain ⟨k0, v0⟩ := q
      have hd0 : 0 ≤ v0.size := hd (k0, v0) (List.mem_cons_self _ _)
      have hdrest : FilesNonneg rest := fun p hp => hd p (List.mem_cons_of_mem _ hp)
      intro p hp
      by_cases hk : k = k0
      · simp only [amodify, if_pos hk] at hp
        rcases List.mem_cons.mp hp with h1 | h2
        · rw [h1]
          exact hg v0
        · exact hdrest p h2
      · simp only [amodify, if_neg hk] at hp
        rcases List.mem_cons.mp hp with h1 | h2
        · rw [h1]
          exact hd0
        · exact ih hdrest p h2

theorem uploadCommit_files (st : StorageManager) (mk : MonthKey) (sn fn : String)
    (sz : Int) : (uploadCommit st mk sn fn sz).2.files = aset st.files fn ⟨fn, sz, sn⟩ :=
  ((statePreserved_calculateTotalFees _ _).files).trans
    ((awriteStats_files _ _ _ _).trans ((statePreserved_ddReadStats _ _ _).files.trans rfl))

theorem deleteCommit_files (st : StorageManager) (mk : MonthKey) (sn fn : String)
    (file : File) : (deleteCommit st mk sn fn file).2.files = aerase st.files fn :=
  ((statePreserved_calculateTotalFees _ _).files).trans
    ((awriteStats_files _ _ _ _).trans ((statePreserved_ddReadStats _ _ _).files.trans rfl))

theorem updateCommit_files (st : StorageManager) (mk : MonthKey) (sn fn : String)
    (os ns : Int) : (updateCommit st mk sn fn os ns).2.files
      = amodify (fun f => { f with size := ns }) st.files fn :=
  (((statePreserved_calculateTotalFees _ _).files).trans rfl).trans
    ((congrArg (fun d => amodify (fun f => { f with size := ns }) d fn)
      ((awriteStats_files _ _ _ _).trans (statePreserved_ddReadStats _ _ _).files)).trans rfl)

theorem handleUpload_effMono (st : StorageManager) (t : Timestamp) (sn fn : String)
    (sz : Int) (hsz : 0 ≤ sz) : EffMono st (handleUpload st t sn fn sz).2 := by
  have hpre : StatePreserved st
      (uploadLimitCheck (ensureMonthInit st (getMonthKey t)) (getMonthKey t) sn sz).2 :=
    statePreserved_trans (statePreserved_ensure st (getMonthKey t))
      (statePreserved_uploadLimitCheck _ _ _ _)
  have hp2 : (alookup (uploadLimitCheck (ensureMonthInit st (getMonthKey t)) (getMonthKey t) sn sz).2.monthly_stats (getMonthKey t)).isSome = true :=
    uploadLimitCheck_lookup_isSome _ _ _ _ (ensure_lookup_isSome st (getMonthKey t))
  simp only [handleUpload]
  split_ifs
  · exact effMono_refl st
  · exact effMono_refl st
  · exact effMono_refl st
  · exact effMono_of_statePreserved hpre
  · exact effMono_trans (effMono_of_statePreserved hpre)
      (uploadCommit_effMono _ _ _ _ _ hp2 hsz)

theorem handleDelete_effMono (st : StorageManager) (t : Timestamp) (sn fn : String)
    (hf : FilesNonneg st.files) : EffMono st (handleDelete st t sn fn).2 := by
  have hens := statePreserved_ensure st (getMonthKey t)
  have hpre : ∀ sz, StatePreserved st
      (deleteLimitCheck (ensureMonthInit st (getMonthKey t)) (getMonthKey t) sn sz).2 :=
    fun sz => statePreserved_trans hens (statePreserved_deleteLimitCheck _ _ _ _)
  have hp2 : ∀ sz, (alookup (deleteLimitCheck (ensureMonthInit st (getMonthKey t)) (getMonthKey t) sn sz).2.monthly_stats (getMonthKey t)).isSome = true :=
    fun sz => deleteLimitCheck_lookup_isSome _ _ _ _ (ensure_lookup_isSome st (getMonthKey t))
  simp only [handleDelete]
  split_ifs with h1 h2 h3 h4 h5
  · exact effMono_of_statePreserved hens
  · exact effMono_of_statePreserved hens
  · exact effMono_of_statePreserved hens
  · exact effMono_of_statePreserved hens
  · exact effMono_of_statePreserved (hpre _)
  · have hs : (alookup (ensureMonthInit st (getMonthKey t)).files fn).isSome = true := by
      cases hv : alookup (ensureMonthInit st (getMonthKey t)).files fn
      · rw [hv] at h3
        simp at h3
      · rfl
    have hmem : (fn, agetD (ensureMonthInit st (getMonthKey t)).files fn dummyFile)
        ∈ (ensureMonthInit st (getMonthKey t)).files :=
      alookup_mem _ _ _ (alookup_isSome_agetD _ _ _ hs)
    have hfsz : 0 ≤ (agetD (ensureMonthInit st (getMonthKey t)).files fn dummyFile).size := by
      rw [hens.files] at hmem ⊢
      exact hf _ hmem
    exact effMono_trans (effMono_of_statePreserved (hpre _))
      (deleteCommit_effMono _ _ _ _ _ (hp2 _) hfsz)

theorem handleUpdate_effMono (st : StorageManager) (t : Timestamp) (sn fn : String)
    (ns : Int) (hf : FilesNonneg st.files) (hns : 0 ≤ ns) :
    EffMono st (handleUpdate st t sn fn ns).2 := by
  have hens := statePreserved_ensure st (getMonthKey t)
  have hpre : ∀ os, StatePreserved st
      (updateLimitCheck (ensureMonthInit st (getMonthKey t)) (getMonthKey t) sn os ns).2 :=
    fun os => statePreserved_trans hens (statePreserved_updateLimitCheck _ _ _ _ _)
  have hp2 : ∀ os, (alookup (updateLimitCheck (ensureMonthInit st (getMonthKey t)) (getMonthKey t) sn os ns).2.monthly_stats (getMonthKey t)).isSome = true :=
    fun os => updateLimitCheck_lookup_isSome _ _ _ _ _ (ensure_lookup_isSome st (getMonthKey t))
  simp only [handleUpdate]
  split_ifs with h1 h2 h3 h4 h5
  · exact effMono_of_statePreserved hens
  · exact effMono_of_statePreserved hens
  · exact effMono_of_statePreserved hens
  · exact effMono_of_statePreserved hens
  · exact effMono_of_statePreserved (hpre _)
  · have hs : (alookup (ensureMonthInit st (getMonthKey t)).files fn).isSome = true := by
      cases hv : alookup (ensureMonthInit st (getMonthKey t)).files fn
      · rw [hv] at h3
        simp at h3
      · rfl
    have hmem : (fn, agetD (ensureMonthInit st (getMonthKey t)).files fn dummyFile)
        ∈ (ensureMonthInit st (getMonthKey t)).files :=
      alookup_mem _ _ _ (alookup_isSome_agetD _ _ _ hs)
    have hfsz : 0 ≤ (agetD (ensureMonthInit st (getMonthKey t)).files fn dummyFile).size := by
      rw [hens.files] at hmem ⊢
      exact hf _ hmem
    exact effMono_trans (effMono_of_statePreserved (hpre _))
      (updateCommit_effMono _ _ _ _ _ _ (hp2 _) (by omega))

theorem handleUpload_filesNonneg (st : StorageManager) (t : Timestamp) (sn fn : String)
    (sz : Int) (hsz : 0 ≤ sz) (hf : FilesNonneg st.files) :
    FilesNonneg (handleUpload st t sn fn sz).2.files := by
  have hpre : StatePreserved st
      (uploadLimitCheck (ensureMonthInit st (getMonthKey t)) (getMonthKey t) sn sz).2 :=
    statePreserved_trans (statePreserved_ensure st (getMonthKey t))
      (statePreserved_uploadLimitCheck _ _ _ _)
  simp only [handleUpload]
  split_ifs
  · exact hf
  · exact hf
  · exact hf
  · rw [hpre.files]
    exact hf
  · rw [uploadCommit_files, hpre.files]
    exact filesNonneg_aset _ _ _ hf hsz

theorem handleDelete_filesNonneg (st : StorageManager) (t : Timestamp) (sn fn : String)
    (hf : FilesNonneg st.files) :
    FilesNonneg (handleDelete st t sn fn).2.files := by
  have hens := statePreserved_ensure st (getMonthKey t)
  have hpre : ∀ sz, StatePreserved st
      (deleteLimitCheck (ensureMonthInit st (getMonthKey t)) (getMonthKey t) sn sz).2 :=
    fun sz => statePreserved_trans hens (statePreserved_deleteLimitCheck _ _ _ _)
  simp only [handleDelete]
  split_ifs
  · rw [hens.files]; exact hf
  · rw [hens.files]; exact hf
  · rw [hens.files]; exact hf
  · rw [hens.files]; exact hf
  · rw [(hpre _).files]; exact hf
  · rw [deleteCommit_files, (hpre _).files]
    exact filesNonneg_aerase _ _ hf

theorem handleUpdate_filesNonneg (st : StorageManager) (t : Timestamp) (sn fn : String)
    (ns : Int) (hns : 0 ≤ ns) (hf : FilesNonneg st.files) :
    FilesNonneg (handleUpdate st t sn fn ns).2.files := by
  have hens := statePreserved_ensure st (getMonthKey t)
  have hpre : ∀ os, StatePreserved st
      (updateLimitCheck (ensureMonthInit st (getMonthKey t)) (getMonthKey t) sn os ns).2 :=
    fun os => statePreserved_trans hens (statePreserved_updateLimitCheck _ _ _ _ _)
  simp only [handleUpdate]
  split_ifs
  · rw [hens.files]; exact hf
  · rw [hens.files]; exact hf
  · rw [hens.files]; exact hf
  · rw [hens.files]; exact hf
  · rw [(hpre _).files]; exact hf
  · rw [updateCommit_files, (hpre _).files]
    exact filesNonneg_amodify _ _ _ hf (fun f => hns)

theorem handleCalc_files (st : StorageManager) (t : Timestamp) :
    (handleCalc st t).2.files = st.files := by
  have hA := statePreserved_calculateTotalFees st (getPreviousMonthKey t)
  simp only [handleCalc]
  split_ifs <;>
    · show (calculateTotalFees st (getPreviousMonthKey t)).2.files = st.files
      exact hA.files

theorem runOp_effMono (st : StorageManager) (op : Op) (hop : op.NonnegSizes)
    (hf : FilesNonneg st.files) : EffMono st (runOp st op).2 := by
  cases op with
  | upload t sn fn sz =>
      simp only [runOp]
      exact handleUpload_effMono st t sn fn sz hop
  | delete t sn fn =>
      simp only [runOp]
      exact handleDelete_effMono st t sn fn hf
  | update t sn fn ns =>
      simp only [runOp]
      exact handleUpdate_effMono st t sn fn ns hf hop
  | closeMonth t => exact hop.elim

theorem runOp_filesNonneg (st : StorageManager) (op : Op) (hop : op.NonnegSizes)
    (hf : FilesNonneg st.files) : FilesNonneg (runOp st op).2.files := by
  cases op with
  | upload t sn fn sz =>
      simp only [runOp]
      exact handleUpload_filesNonneg st t sn fn sz hop hf
  | delete t sn fn =>
      simp only [runOp]
      exact handleDelete_filesNonneg st t sn fn hf
  | update t sn fn ns =>
      simp only [runOp]
      exact handleUpdate_filesNonneg st t sn fn ns hop hf
  | closeMonth t => exact hop.elim

theorem applyOps_effMono (ops : List Op) :
    ∀ st : StorageManager, (∀ op ∈ ops, op.NonnegSizes) → FilesNonneg st.files →
      EffMono st (applyOps st ops) := by
  induction ops with
  | nil => intro st _ _; exact effMono_refl st
  | cons op rest ih =>
      intro st hops hf
      have hop : op.NonnegSizes := hops op (List.mem_cons_self _ _)
      exact effMono_trans (runOp_effMono st op hop hf)
        (ih (runOp st op).2 (fun o ho => hops o (List.mem_cons_of_mem _ ho))
          (runOp_filesNonneg st op hop hf))

theorem maxMono_refl (st : StorageManager) : MaxMono st st :=
  fun _ _ => le_refl _

theorem maxMono_trans {st1 st2 st3 : StorageManager}
    (h1 : MaxMono st1 st2) (h2 : MaxMono st2 st3) : MaxMono st1 st3 :=
  fun mk s => (h1 mk s).trans (h2 mk s)

theorem maxMono_of_statePreserved {st st' : StorageManager}
    (h : StatePreserved st st') : MaxMono st st' := by
  intro mk s
  rw [h.eff]

theorem commitTail_maxMono (st4 : StorageManager) (ns : MonthlyStats) (mk : MonthKey)
    (sn : String) (hp : (alookup st4.monthly_stats mk).isSome = true)
    (hmax : (ddReadStats st4 mk sn).1.max_size ≤ ns.max_size) :
    MaxMono st4 (calculateTotalFees (awriteStats (ddReadStats st4 mk sn).2 mk sn ns) mk).2 := by
  intro mk' s'
  have hpR : (alookup (ddReadStats st4 mk sn).2.monthly_stats mk).isSome = true := by
    rw [ddReadStats_lookup_isSome]
    exact hp
  have hcal := (statePreserved_calculateTotalFees (awriteStats (ddReadStats st4 mk sn).2 mk sn ns) mk).eff mk' s'
  have hw := effStats_awriteStats (ddReadStats st4 mk sn).2 mk sn ns hpR mk' s'
  have hdd := (statePreserved_ddReadStats st4 mk sn).eff mk' s'
  have hfst := ddReadStats_fst st4 mk sn hp
  rw [hcal, hw]
  by_cases hc : mk' = mk ∧ s' = sn
  · rw [if_pos hc]
    obtain ⟨hc1, hc2⟩ := hc
    subst hc1
    subst hc2
    rw [← hfst]
    exact hmax
  · rw [if_neg hc, hdd]

theorem commitTailModify_maxMono (st4 : StorageManager) (ns : MonthlyStats) (mk : MonthKey)
    (sn fn : String) (g : File → File)
    (hp : (alookup st4.monthly_stats mk).isSome = true)
    (hmax : (ddReadStats st4 mk sn).1.max_size ≤ ns.max_size) :
    MaxMono st4 (calculateTotalFees
      { awriteStats (ddReadStats st4 mk sn).2 mk sn ns with
          files := amodify g (awriteStats (ddReadStats st4 mk sn).2 mk sn ns).files fn } mk).2 := by
  have hbase := commitTail_maxMono st4 ns mk sn hp hmax
  intro mk' s'
  have hcal := (statePreserved_calculateTotalFees
    { awriteStats (ddReadStats st4 mk sn).2 mk sn ns with
        files := amodify g (awriteStats (ddReadStats st4 mk sn).2 mk sn ns).files fn } mk).eff mk' s'
  have hcal2 := (statePreserved_calculateTotalFees (awriteStats (ddReadStats st4 mk sn).2 mk sn ns) mk).eff mk' s'
  have hx := hbase mk' s'
  rw [hcal2] at hx
  rw [hcal]
  exact hx

theorem uploadCommit_maxMono (st : StorageManager) (mk : MonthKey) (sn fn : String)
    (sz : Int) (hp : (alookup st.monthly_stats mk).isSome = true) :
    MaxMono st (uploadCommit st mk sn fn sz).2 := by
  refine maxMono_trans ?_ (commitTail_maxMono _ _ mk sn ?_ ?_)
  · exact fun mk' s' => le_refl _
  · exact hp
  · exact le_max_left _ _

theorem deleteCommit_maxMono (st : StorageManager) (mk : MonthKey) (sn fn : String)
    (file : File) (hp : (alookup st.monthly_stats mk).isSome = true) :
    MaxMono st (deleteCommit st mk sn fn file).2 := by
  refine maxMono_trans ?_ (commitTail_maxMono _ _ mk sn ?_ ?_)
  · exact fun mk' s' => le_refl _
  · exact hp
  · exact le_refl _

theorem updateCommit_maxMono (st : StorageManager) (mk : MonthKey) (sn fn : String)
    (os ns : Int) (hp : (alookup st.monthly_stats mk).isSome = true) :
    MaxMono st (updateCommit st mk sn fn os ns).2 := by
  refine maxMono_trans ?_ (commitTailModify_maxMono _ _ mk sn fn _ ?_ ?_)
  · exact fun mk' s' => le_refl _
  · exact hp
  · exact le_max_left _ _

theorem handleUpload_maxMono (st : StorageManager) (t : Timestamp) (sn fn : String)
    (sz : Int) : MaxMono st (handleUpload st t sn fn sz).2 := by
  have hpre : StatePreserved st
      (uploadLimitCheck (ensureMonthInit st (getMonthKey t)) (getMonthKey t) sn sz).2 :=
    statePreserved_trans (statePreserved_ensure st (getMonthKey t))
      (statePreserved_uploadLimitCheck _ _ _ _)
  have hp2 : (alookup (uploadLimitCheck (ensureMonthInit st (getMonthKey t)) (getMonthKey t) sn sz).2.monthly_stats (getMonthKey t)).isSome = true :=
    uploadLimitCheck_lookup_isSome _ _ _ _ (ensure_lookup_isSome st (getMonthKey t))
  simp only [handleUpload]
  split_ifs
  · exact maxMono_refl st
  · exact maxMono_refl st
  · exact maxMono_refl st
  · exact maxMono_of_statePreserved hpre
  · exact maxMono_trans (maxMono_of_statePreserved hpre)
      (uploadCommit_maxMono _ _ _ _ _ hp2)

theorem handleDelete_maxMono (st : StorageManager) (t : Timestamp) (sn fn : String) :
    MaxMono st (handleDelete st t sn fn).2 := by
  have hens := statePreserved_ensure st (getMonthKey t)
  have hpre : ∀ sz, StatePreserved st
      (deleteLimitCheck (ensureMonthInit st (getMonthKey t)) (getMonthKey t) sn sz).2 :=
    fun sz => statePreserved_trans hens (statePreserved_deleteLimitCheck _ _ _ _)
  have hp2 : ∀ sz, (alookup (deleteLimitCheck (ensureMonthInit st (getMonthKey t)) (getMonthKey t) sn sz).2.monthly_stats (getMonthKey t)).isSome = true :=
    fun sz => deleteLimitCheck_lookup_isSome _ _ _ _ (ensure_lookup_isSome st (getMonthKey t))
  simp only [handleDelete]
  split_ifs
  · exact maxMono_of_statePreserved hens
  · exact maxMono_of_statePreserved hens
  · exact maxMono_of_statePreserved hens
  · exact maxMono_of_statePreserved hens
  · exact maxMono_of_statePreserved (hpre _)
  · exact maxMono_trans (maxMono_of_statePreserved (hpre _))
      (deleteCommit_maxMono _ _ _ _ _ (hp2 _))

theorem handleUpdate_maxMono (st : StorageManager) (t : Timestamp) (sn fn : String)
    (ns : Int) : MaxMono st (handleUpdate st t sn fn ns).2 := by
  have hens := statePreserved_ensure st (getMonthKey t)
  have hpre : ∀ os, StatePreserved st
      (updateLimitCheck (ensureMonthInit st (getMonthKey t)) (getMonthKey t) sn os ns).2 :=
    fun os => statePreserved_trans hens (statePreserved_updateLimitCheck _ _ _ _ _)
  have hp2 : ∀ os, (alookup (updateLimitCheck (ensureMonthInit st (getMonthKey t)) (getMonthKey t) sn os ns).2.monthly_stats (getMonthKey t)).isSome = true :=
    fun os => updateLimitCheck_lookup_isSome _ _ _ _ _ (ensure_lookup_isSome st (getMonthKey t))
  simp only [handleUpdate]
  split_ifs
  · exact maxMono_of_statePreserved hens
  · exact maxMono_of_statePreserved hens
  · exact maxMono_of_statePreserved hens
  · exact maxMono_of_statePreserved hens
  · exact maxMono_of_statePreserved (hpre _)
  · exact maxMono_trans (maxMono_of_statePreserved (hpre _))
      (updateCommit_maxMono _ _ _ _ _ _ (hp2 _))

theorem runOp_maxMono (st : StorageManager) (op : Op) (hop : op.IsFileOp) :
    MaxMono st (runOp st op).2 := by
  cases op with
  | upload t sn fn sz =>
      simp only [runOp]
      exact handleUpload_maxMono st t sn fn sz
  | delete t sn fn =>
      simp only [runOp]
      exact handleDelete_maxMono st t sn fn
  | update t sn fn ns =>
      simp only [runOp]
      exact handleUpdate_maxMono st t sn fn ns
  | closeMonth t => exact hop.elim

theorem applyOps_maxMono (ops : List Op) :
    ∀ st : StorageManager, (∀ op ∈ ops, op.IsFileOp) →
      MaxMono st (applyOps st ops) := by
  induction ops with
  | nil => intro st _; exact maxMono_refl st
  | cons op rest ih =>
      intro st hops
      have hop : op.IsFileOp := hops op (List.mem_cons_self _ _)
      exact maxMono_trans (runOp_maxMono st op hop)
        (ih (runOp st op).2 (fun o ho => hops o (List.mem_cons_of_mem _ ho)))

theorem handleCalc_first_snapshot (st : StorageManager) (t : Timestamp)
    (h : alookup st.calc_reported_sizes_snapshot (getPreviousMonthKey t) = none) :
    alookup (handleCalc st t).2.calc_reported_sizes_snapshot (getPreviousMonthKey t)
        = some (STORAGE_UNITS.map (fun p => (p.1, agetD st.current_storage_size p.1 0)))
      ∧ ∀ p ∈ STORAGE_UNITS, alookup (handleCalc st t).2.last_month_eom_storage_sizes p.1
          = some (agetD st.current_storage_size p.1 0) := by
  have hA := statePreserved_calculateTotalFees st (getPreviousMonthKey t)
  simp only [handleCalc]
  split_ifs with hb
  · constructor
    · have hgen : ∀ w, alookup
          (aset (calculateTotalFees st (getPreviousMonthKey t)).2.calc_reported_sizes_snapshot
            (getPreviousMonthKey t) w) (getPreviousMonthKey t) = some w := by
        intro w
        rw [alookup_aset]
        simp
      refine (hgen _).trans ?_
      rw [hA.css]
    · intro p hp
      have hgen : ∀ s, s ∈ STORAGE_UNITS.map Prod.fst →
          alookup (STORAGE_UNITS.foldl
            (fun e q => aset e q.1 (agetD (calculateTotalFees st (getPreviousMonthKey t)).2.current_storage_size q.1 0))
            (calculateTotalFees st (getPreviousMonthKey t)).2.last_month_eom_storage_sizes) s
          = some (agetD st.current_storage_size s 0) := by
        intro s hs
        rw [hA.css]
        simp only [STORAGE_UNITS, List.map_cons, List.map_nil] at hs
        simp only [STORAGE_UNITS, List.foldl_cons, List.foldl_nil]
        fin_cases hs <;> simp [alookup_aset]
      have hp1 : p.1 ∈ STORAGE_UNITS.map Prod.fst := List.mem_map_of_mem _ hp
      exact hgen p.1 hp1
  · rw [hA.snap, h] at hb
    simp at hb

/-- Claim C1, counterexample: a rejected delete (missing file) on a fresh
free-plan manager returns the rejection but leaves `monthly_stats` changed —
`_ensure_month_init` runs before validation and materializes the month entry —
so the state is not bit-for-bit identical. -/
theorem claim_C1_counterexample :
    (handleDelete (initManager true) ⟨2024, 1, 5⟩ "storage_A1" "ghost").1
        = .rejected "DELETE: file does not exist"
      ∧ (handleDelete (initManager true) ⟨2024, 1, 5⟩ "storage_A1" "ghost").2.monthly_stats
        ≠ (initManager true).monthly_stats := by
  decide

/-- Claim C1 (amended): every rejected operation leaves the File Registry,
CurrentOccupancy, the snapshot table, the settled set, the seed table, and the
value of every effective monthly aggregate unchanged; only lazy
materialization of missing `monthly_stats` entries (with exactly their
seeded/default values) may occur, so the monthly-stats mapping itself need not
be bit-for-bit identical. -/
theorem claim_C1_rejection_preserves (st : StorageManager) (op : Op) (msg : String)
    (h : (runOp st op).1 = some (.rejected msg)) :
    StatePreserved st (runOp st op).2 := by
  cases op with
  | upload t sn fn sz =>
      simp only [runOp] at h ⊢
      exact handleUpload_rejected st t sn fn sz msg (Option.some.inj h)
  | delete t sn fn =>
      simp only [runOp] at h ⊢
      exact handleDelete_rejected st t sn fn msg (Option.some.inj h)
  | update t sn fn ns =>
      simp only [runOp] at h ⊢
      exact handleUpdate_rejected st t sn fn ns msg (Option.some.inj h)
  | closeMonth t =>
      simp only [runOp] at h
      exact Option.noConfusion h

/-- Claim C1, witness: the amended theorem applied to the rejected delete of a
missing file on a fresh free-plan manager. -/
theorem claim_C1_witness :
    (runOp (initManager true) (.delete ⟨2024, 1, 5⟩ "storage_A1" "ghost")).1
        = some (.rejected "DELETE: file does not exist")
      ∧ StatePreserved (initManager true)
          (runOp (initManager true) (.delete ⟨2024, 1, 5⟩ "storage_A1" "ghost")).2 :=
  ⟨by decide,
   claim_C1_rejection_preserves (initManager true)
     (.delete ⟨2024, 1, 5⟩ "storage_A1" "ghost") "DELETE: file does not exist" (by decide)⟩

/-- Claim C2, counterexample: after a 500 KB upload in January, two
immediately consecutive month-closes for January return different strings —
the first reports update fee 1, the second (the month now settled) reports 0. -/
theorem claim_C2_counterexample :
    renderCalc (handleCalc c2State ⟨2024, 2, 1⟩).1
      ≠ renderCalc (handleCalc (handleCalc c2State ⟨2024, 2, 1⟩).2 ⟨2024, 2, 1⟩).1 := by
  decide

/-- Claim C2 (amended): repeated `handle_calc` calls resolving to the same
month report identical snapshot sizes, regardless of the operations performed
between the calls; but the results are not byte-identical in general, because
the first call settles the month, so every subsequent call reports an update
fee of 0. -/
theorem claim_C2_calc_repeat (st : StorageManager) (t t' : Timestamp) (ops : List Op)
    (hm : getPreviousMonthKey t' = getPreviousMonthKey t) :
    ((handleCalc (applyOps (handleCalc st t).2 ops) t').1.kb_a1 = (handleCalc st t).1.kb_a1
      ∧ (handleCalc (applyOps (handleCalc st t).2 ops) t').1.kb_a2 = (handleCalc st t).1.kb_a2
      ∧ (handleCalc (applyOps (handleCalc st t).2 ops) t').1.kb_b1 = (handleCalc st t).1.kb_b1
      ∧ (handleCalc (applyOps (handleCalc st t).2 ops) t').1.kb_b2 = (handleCalc st t).1.kb_b2)
    ∧ (handleCalc (applyOps (handleCalc st t).2 ops) t').1.fees.update_fee = 0 := by
  have hsome1 := handleCalc_snapshot_isSome st t
  have hlook1 : alookup (handleCalc st t).2.calc_reported_sizes_snapshot (getPreviousMonthKey t)
      = some (agetD (handleCalc st t).2.calc_reported_sizes_snapshot (getPreviousMonthKey t) []) :=
    alookup_isSome_agetD _ _ _ hsome1
  have hlook2 := applyOps_snap_lookup ops (handleCalc st t).2 (getPreviousMonthKey t) _ hlook1
  have hlook3 := handleCalc_snap_lookup (applyOps (handleCalc st t).2 ops) t'
    (getPreviousMonthKey t) _ hlook2
  have hsz1 := handleCalc_sizes st t
  have hsz2 := handleCalc_sizes (applyOps (handleCalc st t).2 ops) t'
  rw [hm] at hsz2
  have hval : agetD (handleCalc (applyOps (handleCalc st t).2 ops) t').2.calc_reported_sizes_snapshot
        (getPreviousMonthKey t) []
      = agetD (handleCalc st t).2.calc_reported_sizes_snapshot (getPreviousMonthKey t) [] := by
    unfold agetD
    rw [hlook3, hlook1]
  obtain ⟨ha1, ha2, hb1, hb2⟩ := hsz1
  obtain ⟨ha1', ha2', hb1', hb2'⟩ := hsz2
  refine ⟨⟨?_, ?_, ?_, ?_⟩, ?_⟩
  · rw [ha1', hval, ha1]
  · rw [ha2', hval, ha2]
  · rw [hb1', hval, hb1]
  · rw [hb2', hval, hb2]
  · rw [handleCalc_fees, hm, calculateTotalFees_fst]
    have hmem := applyOps_settled_mem ops (handleCalc st t).2 (getPreviousMonthKey t)
      (handleCalc_settled_self st t)
    exact updateFeeOf_settled _ _ hmem

/-- Claim C2, witness: the amended theorem applied to two consecutive
month-closes (no operations between) on the one-upload state. -/
theorem claim_C2_witness :
    ((handleCalc (applyOps (handleCalc c2State ⟨2024, 2, 1⟩).2 []) ⟨2024, 2, 1⟩).1.kb_a1
        = (handleCalc c2State ⟨2024, 2, 1⟩).1.kb_a1
      ∧ (handleCalc (applyOps (handleCalc c2State ⟨2024, 2, 1⟩).2 []) ⟨2024, 2, 1⟩).1.kb_a2
        = (handleCalc c2State ⟨2024, 2, 1⟩).1.kb_a2
      ∧ (handleCalc (applyOps (handleCalc c2State ⟨2024, 2, 1⟩).2 []) ⟨2024, 2, 1⟩).1.kb_b1
        = (handleCalc c2State ⟨2024, 2, 1⟩).1.kb_b1
      ∧ (handleCalc (applyOps (handleCalc c2State ⟨2024, 2, 1⟩).2 []) ⟨2024, 2, 1⟩).1.kb_b2
        = (handleCalc c2State ⟨2024, 2, 1⟩).1.kb_b2)
    ∧ (handleCalc (applyOps (handleCalc c2State ⟨2024, 2, 1⟩).2 []) ⟨2024, 2, 1⟩).1.fees.update_fee = 0 :=
  claim_C2_calc_repeat c2State ⟨2024, 2, 1⟩ ⟨2024, 2, 1⟩ [] rfl

/-- Claim C3, counterexample: on the two-upload paid state the code's usage
fee is 50 (single ceiling of the pooled decimal sum minus 1000), while the
per-unit-ceiling overage the claim describes would be 52. -/
theorem claim_C3_counterexample :
    (calculateTotalFees c3State ⟨2024, 1⟩).1.usage_fee = 50
      ∧ usageFeePerUnitCeilClaim c3State ⟨2024, 1⟩ = 52 := by
  decide

/-- Claim C3 (amended): the storage-fee and update-fee totals are rounded up
with the two-stage per-unit ceiling before summation — in particular a unit
with rate 0.01 per MB and a 1500 KB watermark contributes storage fee 1 — but
the overage applies only the KB-to-MB per-unit ceiling, pools the unceiled
decimal contributions, and applies a single ceiling to the pooled sum minus
1000. -/
theorem claim_C3_rounding (st : StorageManager) (mk : MonthKey) :
    (calculateTotalFees st mk).1
        = ⟨storageFeeOf st mk, updateFeeOf st mk, usageFeeOf st mk⟩
      ∧ feeItem 1500 100 = 1 :=
  ⟨calculateTotalFees_fst st mk, by decide⟩

/-- Claim C4: the free-plan limit check returns true exactly when the engine
is on the free plan and the simulated post-operation total of per-unit integer
storage plus update fees over the free-tier-eligible units strictly exceeds
1000 — so a simulated total of exactly 1000 passes, and a paid engine always
gets false. -/
theorem claim_C4_limit_iff (st : StorageManager) (mk : MonthKey) (opName : String)
    (opMax opKb : Int) :
    (wouldExceedFreePlanLimit st mk opName opMax opKb).1
      = (st.is_free_plan && decide (1000 < simulatedFreeTierFee st mk opName opMax opKb)) :=
  wouldExceed_fst st mk opName opMax opKb

/-- Claim C5: once `handle_calc` settles month M, every later fee computation
for M — after any further operations — reports an update fee of 0 and a usage
fee with zero update contribution, while the stored `update_kb_sum` aggregates
of M are left unchanged by the settlement itself. -/
theorem claim_C5_settlement (st : StorageManager) (t : Timestamp) (ops : List Op)
    (s : String) :
    (calculateTotalFees (applyOps (handleCalc st t).2 ops) (getPreviousMonthKey t)).1.update_fee = 0
      ∧ (calculateTotalFees (applyOps (handleCalc st t).2 ops) (getPreviousMonthKey t)).1.usage_fee
        = ceilDec (max 0 (storageDecOf (applyOps (handleCalc st t).2 ops) (getPreviousMonthKey t) - 1000 * DEC_ONE))
      ∧ (effStats (handleCalc st t).2 (getPreviousMonthKey t) s).update_kb_sum
        = (effStats st (getPreviousMonthKey t) s).update_kb_sum := by
  have hmem := applyOps_settled_mem ops (handleCalc st t).2 (getPreviousMonthKey t)
    (handleCalc_settled_self st t)
  refine ⟨?_, ?_, ?_⟩
  · rw [calculateTotalFees_fst]
    exact updateFeeOf_settled _ _ hmem
  · rw [calculateTotalFees_fst]
    show usageFeeOf _ _ = _
    unfold usageFeeOf
    rw [updateDecOf_settled _ _ hmem, add_zero]
  · exact congrArg MonthlyStats.update_kb_sum (handleCalc_effStats st t s)

/-- Claim C6: the first month-close for a resolved month snapshots the current
occupancy of every configured unit into the snapshot table, copies the same
values into the seed table, seeds any month created afterwards with those
occupancies as initial watermarks, and later month-closes for the same month
leave the captured snapshot unchanged. -/
theorem claim_C6_snapshot (st : StorageManager) (t : Timestamp)
    (h : alookup st.calc_reported_sizes_snapshot (getPreviousMonthKey t) = none) :
    alookup (handleCalc st t).2.calc_reported_sizes_snapshot (getPreviousMonthKey t)
        = some (STORAGE_UNITS.map (fun p => (p.1, agetD st.current_storage_size p.1 0)))
      ∧ (∀ p ∈ STORAGE_UNITS, alookup (handleCalc st t).2.last_month_eom_storage_sizes p.1
          = some (agetD st.current_storage_size p.1 0))
      ∧ (∀ mk₂, alookup (handleCalc st t).2.monthly_stats mk₂ = none →
          ∀ p ∈ STORAGE_UNITS,
            alookup ((alookup (ensureMonthInit (handleCalc st t).2 mk₂).monthly_stats mk₂).getD []) p.1
              = some { max_size := agetD st.current_storage_size p.1 0, update_kb_sum := 0 })
      ∧ (∀ t₂, getPreviousMonthKey t₂ = getPreviousMonthKey t →
          alookup (handleCalc (handleCalc st t).2 t₂).2.calc_reported_sizes_snapshot (getPreviousMonthKey t)
            = alookup (handleCalc st t).2.calc_reported_sizes_snapshot (getPreviousMonthKey t)) := by
  obtain ⟨ha, hb⟩ := handleCalc_first_snapshot st t h
  refine ⟨ha, hb, ?_, ?_⟩
  · intro mk₂ hnone p hp
    rw [ensure_lookup_self_none _ _ hnone]
    show alookup (seededStats (handleCalc st t).2.last_month_eom_storage_sizes) p.1 = _
    rw [alookup_seededStats, hb p hp]
    rfl
  · intro t₂ hm2
    rw [handleCalc_snap_lookup (handleCalc st t).2 t₂ (getPreviousMonthKey t) _ ha, ha]

/-- Claim C6, witness: the theorem applied to a fresh free-plan manager and a
February 2024 month-close (no snapshot exists yet). -/
theorem claim_C6_witness :
    alookup (handleCalc (initManager true) ⟨2024, 2, 1⟩).2.calc_reported_sizes_snapshot
        (getPreviousMonthKey ⟨2024, 2, 1⟩)
        = some (STORAGE_UNITS.map (fun p => (p.1, agetD (initManager true).current_storage_size p.1 0)))
      ∧ (∀ p ∈ STORAGE_UNITS,
          alookup (handleCalc (initManager true) ⟨2024, 2, 1⟩).2.last_month_eom_storage_sizes p.1
            = some (agetD (initManager true).current_storage_size p.1 0))
      ∧ (∀ mk₂, alookup (handleCalc (initManager true) ⟨2024, 2, 1⟩).2.monthly_stats mk₂ = none →
          ∀ p ∈ STORAGE_UNITS,
            alookup ((alookup (ensureMonthInit (handleCalc (initManager true) ⟨2024, 2, 1⟩).2 mk₂).monthly_stats mk₂).getD []) p.1
              = some { max_size := agetD (initManager true).current_storage_size p.1 0, update_kb_sum := 0 })
      ∧ (∀ t₂, getPreviousMonthKey t₂ = getPreviousMonthKey ⟨2024, 2, 1⟩ →
          alookup (handleCalc (handleCalc (initManager true) ⟨2024, 2, 1⟩).2 t₂).2.calc_reported_sizes_snapshot
              (getPreviousMonthKey ⟨2024, 2, 1⟩)
            = alookup (handleCalc (initManager true) ⟨2024, 2, 1⟩).2.calc_reported_sizes_snapshot
              (getPreviousMonthKey ⟨2024, 2, 1⟩)) :=
  claim_C6_snapshot (initManager true) ⟨2024, 2, 1⟩ (by decide)

/-- Claim C7: starting from a fresh manager, after any sequence of operations
every unit's CurrentOccupancy equals the sum of the sizes of the files
currently registered to it (accepted operations maintain the balance and
rejected ones change neither side). -/
theorem claim_C7_conservation (b : Bool) (ops : List Op) (s : String) :
    agetD (applyOps (initManager b) ops).current_storage_size s 0
      = unitFilesSize (applyOps (initManager b) ops).files s :=
  applyOps_conservation ops (initManager b) (initManager_conservation b) s

/-- Claim C8, counterexample: an upload with size −5 is accepted on a fresh
free-plan manager and drives January's `update_kb_sum` for `storage_A1` from
0 down to −5 — the aggregate decreased across an accepted operation. -/
theorem claim_C8_counterexample :
    (handleUpload (initManager true) ⟨2024, 1, 5⟩ "storage_A1" "f" (-5)).1 = .ok ⟨0, 0, 0⟩
      ∧ (effStats (initManager true) ⟨2024, 1⟩ "storage_A1").update_kb_sum = 0
      ∧ (effStats (handleUpload (initManager true) ⟨2024, 1, 5⟩ "storage_A1" "f" (-5)).2
          ⟨2024, 1⟩ "storage_A1").update_kb_sum = -5 := by
  decide

/-- Claim C8 (amended): across any sequence of upload/delete/update calls the
`max_size` aggregate of every (month, unit) pair never decreases,
unconditionally — every write of it takes `max` with the old value; the
`update_kb_sum` aggregate also never decreases provided every size argument in
the sequence is nonnegative and every registered file size is nonnegative
(without that restriction it can decrease, as the counterexample shows). -/
theorem claim_C8_monotonicity (st : StorageManager) (ops : List Op) (mk : MonthKey)
    (s : String) (hfile : ∀ op ∈ ops, op.IsFileOp) :
    (effStats st mk s).max_size ≤ (effStats (applyOps st ops) mk s).max_size
      ∧ ((∀ op ∈ ops, op.NonnegSizes) → FilesNonneg st.files →
          (effStats st mk s).update_kb_sum ≤ (effStats (applyOps st ops) mk s).update_kb_sum) :=
  ⟨applyOps_maxMono ops st hfile mk s,
   fun hops hf => (applyOps_effMono ops st hops hf mk s).2⟩

/-- Claim C8, witness: the amended theorem applied to a single 500 KB upload
on a fresh free-plan manager, with both inner hypotheses discharged. -/
theorem claim_C8_witness :
    (effStats (initManager true) ⟨2024, 1⟩ "storage_A1").max_size
        ≤ (effStats (applyOps (initManager true) [.upload ⟨2024, 1, 5⟩ "storage_A1" "f1" 500])
            ⟨2024, 1⟩ "storage_A1").max_size
      ∧ (effStats (initManager true) ⟨2024, 1⟩ "storage_A1").update_kb_sum
        ≤ (effStats (applyOps (initManager true) [.upload ⟨2024, 1, 5⟩ "storage_A1" "f1" 500])
            ⟨2024, 1⟩ "storage_A1").update_kb_sum := by
  have h := claim_C8_monotonicity (initManager true)
    [.upload ⟨2024, 1, 5⟩ "storage_A1" "f1" 500] ⟨2024, 1⟩ "storage_A1"
    (by
      intro op hop
      rw [List.mem_singleton] at hop
      subst hop
      exact trivial)
  refine ⟨h.1, h.2 ?_ ?_⟩
  · intro op hop
    rw [List.mem_singleton] at hop
    subst hop
    show (0 : Int) ≤ 500
    decide
  · intro p hp
    simp [initManager] at hp

/-- Claim C9: the admission simulator never consults the settled-months set —
its verdict is invariant under arbitrary changes of that set — and concretely,
after January is settled, a further January upload is rejected with the
free-plan-limit message even though January's reported update fee is 0 while
its stored traffic is 50,000,000 KB. -/
theorem claim_C9_settled_ignored :
    (∀ (st : StorageManager) (X : List MonthKey) (mk : MonthKey) (opName : String)
        (opMax opKb : Int),
        (wouldExceedFreePlanLimit { st with update_fee_settled_for_month := X } mk opName opMax opKb).1
          = (wouldExceedFreePlanLimit st mk opName opMax opKb).1)
      ∧ (handleUpload c9State ⟨2024, 1, 20⟩ "storage_A2" "f2" 50000000).1
          = .rejected "UPLOAD: free plan fee limit exceeded"
      ∧ (calculateTotalFees c9State ⟨2024, 1⟩).1.update_fee = 0
      ∧ (⟨2024, 1⟩ : MonthKey) ∈ c9State.update_fee_settled_for_month
      ∧ (effStats c9State ⟨2024, 1⟩ "storage_A2").update_kb_sum = 50000000 := by
  refine ⟨?_, by decide, by decide, by decide, by decide⟩
  intro st X mk opName opMax opKb
  rw [wouldExceed_fst, wouldExceed_fst]
  rfl

/-- Claim C10: upload and update perform no validation of the size argument —
on a paid engine every integer size (and every integer new size) is accepted —
and on the free plan a negative upload size is accepted, drives
CurrentOccupancy and the month's traffic negative, and an update with a new
size below the negated original size decreases the month's traffic. -/
theorem claim_C10_no_size_validation :
    (∀ sz : Int,
        ((handleUpload (initManager false) ⟨2024, 1, 5⟩ "storage_A1" "f1" sz).1).isOk = true)
      ∧ (∀ ns : Int,
          ((handleUpdate c10Paid ⟨2024, 1, 6⟩ "storage_A1" "f1" ns).1).isOk = true)
      ∧ ((handleUpload (initManager true) ⟨2024, 1, 5⟩ "storage_A1" "f" (-5)).1 = .ok ⟨0, 0, 0⟩
          ∧ agetD (handleUpload (initManager true) ⟨2024, 1, 5⟩ "storage_A1" "f" (-5)).2.current_storage_size
              "storage_A1" 0 = -5
          ∧ (effStats (handleUpload (initManager true) ⟨2024, 1, 5⟩ "storage_A1" "f" (-5)).2
              ⟨2024, 1⟩ "storage_A1").update_kb_sum = -5)
      ∧ ((handleUpdate c10Free ⟨2024, 1, 6⟩ "storage_A1" "g" (-25)).1 = .ok ⟨1, 0, 0⟩
          ∧ (effStats c10Free ⟨2024, 1⟩ "storage_A1").update_kb_sum = 10
          ∧ (effStats (handleUpdate c10Free ⟨2024, 1, 6⟩ "storage_A1" "g" (-25)).2
              ⟨2024, 1⟩ "storage_A1").update_kb_sum = -5) :=
  ⟨fun _ => rfl, fun _ => rfl, by decide, by decide⟩

end StorageFee

